import Mathlib

/-!
# Verification of the chess engine "check-yo-self"

A shallow embedding in Lean 4 of the parts of the engine that the claims
C1..C10 are about, together with proofs / refutations of those claims.

Conventions of the embedding:

* C++ `int` coordinates become `Int`.  The 8x8 array
  `squares[8][8]` becomes a total function `Int → Int → Piece`; the C++
  program only ever reads or writes it at indices in `[0,8)` on the inputs
  covered by the claims (an out-of-range access would be C++ undefined
  behaviour), so the values of the function outside that range are
  irrelevant junk that no operation of the embedding touches on those
  inputs.
* The four global Zobrist key tables `Z_PIECE`, `Z_SIDE`, `Z_CASTLING`,
  `Z_ENPASSANT` (zobrist_h.cpp) are modelled as an explicit parameter
  `Z : ZTables` threaded through the functions that read them; the
  theorems below hold for every table, in particular for the
  splitmix64-initialised one built by `init_zobrist`.  Hash values are
  `Nat`: the program only ever XORs keys, which cannot overflow 64 bits.
* Mutation (`Board&`) becomes explicit state passing: `make_move` returns
  the new board together with the `Undo` record it filled in.
* The global killer-move and history tables of 4_select_best_move.cpp are
  likewise passed as parameters to `calculate_move_score`.
-/

namespace CheckYoSelf

/-- Piece kinds, from `src/include/board.h` (`enum class PieceType`). -/
inductive PieceType where
  | None
  | Pawn
  | Knight
  | Bishop
  | Rook
  | Queen
  | King
deriving DecidableEq, Repr

/-- Player colours, from `src/include/board.h` (`enum class Color`);
`Color.None` is used only for empty squares. -/
inductive Color where
  | None
  | White
  | Black
deriving DecidableEq, Repr

/-- A piece: kind and owner, from `src/include/board.h` (`struct Piece`);
the default (an empty square) is `(None, None)`. -/
@[ext]
structure Piece where
  type : PieceType := PieceType.None
  color : Color := Color.None
deriving DecidableEq, Repr

instance : Inhabited Piece := ⟨{}⟩

/-- Promotion choice carried by a move, from `src/include/move.h`
(`enum promotion_piece_type`). -/
inductive promotion_piece_type where
  | NONE
  | QUEEN
  | ROOK
  | BISHOP
  | KNIGHT
deriving DecidableEq, Repr

/-- A move, from `src/include/move.h` (`struct move`): coordinates in
`[0,8)` with row 0 = White's back rank, plus the promotion choice. -/
structure move where
  from_row : Int
  from_col : Int
  to_row : Int
  to_col : Int
  promotion : promotion_piece_type := promotion_piece_type.NONE
deriving DecidableEq, Repr

/-- The board, from `src/include/board.h` (`struct Board`).  The field
`zobrist_hash` does not appear in the copy of `board.h` shipped under
`src/include`, but `src/make_move.cpp` reads and writes
`board.zobrist_hash` and `undo.zobrist_hash`, so the `Board` those files
were compiled against carries it; the spec (section 3) confirms:
"`zobrist_hash`: a 64-bit field maintained incrementally". -/
@[ext]
structure Board where
  squares : Int → Int → Piece := fun _ _ => {}
  side_to_move : Color := Color.White
  white_can_castle_kingside : Bool := true
  white_can_castle_queenside : Bool := true
  black_can_castle_kingside : Bool := true
  black_can_castle_queenside : Bool := true
  en_passant_row : Int := -1
  en_passant_col : Int := -1
  zobrist_hash : Nat := 0

/-- The undo record, from `src/include/board.h` (`struct Undo`), plus the
`zobrist_hash` member that `src/make_move.cpp` saves and restores (see the
comment on `Board.zobrist_hash`). -/
structure Undo where
  captured : Piece := {}
  moved_piece_type : PieceType := PieceType.None
  white_can_castle_kingside : Bool := true
  white_can_castle_queenside : Bool := true
  black_can_castle_kingside : Bool := true
  black_can_castle_queenside : Bool := true
  side_to_move : Color := Color.White
  en_passant_row : Int := -1
  en_passant_col : Int := -1
  was_en_passant : Bool := false
  zobrist_hash : Nat := 0

/-- The four Zobrist key tables of `src/zobrist_h.cpp`
(`Z_PIECE[2][7][64]`, `Z_SIDE`, `Z_CASTLING[16]`, `Z_ENPASSANT[8]`),
as one record of total functions; see the header comment of this file. -/
structure ZTables where
  piece : Int → Int → Int → Nat
  side : Nat
  castling : Int → Nat
  enpassant : Int → Nat

/-- `zc` of `src/make_move.cpp`: the colour index into `Z_PIECE`. -/
def zc (c : Color) : Int :=
  if c = Color.White then 0
  else if c = Color.Black then 1
  else -1

/-- `static_cast<int>` on `PieceType` (the C++ enum's underlying value). -/
def pieceTypeIndex (t : PieceType) : Int :=
  match t with
  | PieceType.None => 0
  | PieceType.Pawn => 1
  | PieceType.Knight => 2
  | PieceType.Bishop => 3
  | PieceType.Rook => 4
  | PieceType.Queen => 5
  | PieceType.King => 6

/-- `castle_index` of `src/make_move.cpp`: the 4-bit castling-rights mask
(the bits are distinct, so the C++ `|=` chain is a sum). -/
def castle_index (b : Board) : Int :=
  (if b.white_can_castle_kingside then 1 else 0) +
  (if b.white_can_castle_queenside then 2 else 0) +
  (if b.black_can_castle_kingside then 4 else 0) +
  (if b.black_can_castle_queenside then 8 else 0)

/-- `sq_index` of `src/make_move.cpp` and `src/zobrist_h.cpp`. -/
def sq_index (row col : Int) : Int := row * 8 + col

/-- Writing one cell of the 8x8 array (`board.squares[r][c] = p`). -/
def setSquare (s : Int → Int → Piece) (r c : Int) (p : Piece) : Int → Int → Piece :=
  fun r2 c2 => if r2 = r ∧ c2 = c then p else s r2 c2

/-- `compute_zobrist` of `src/zobrist_h.cpp`: XOR of the piece keys of the
occupied squares (skipping a colourless piece, the `continue`), then the
side key iff Black to move, the castling key of the rights mask, and the
en-passant file key iff `en_passant_col >= 0`. -/
def compute_zobrist (Z : ZTables) (b : Board) : Nat :=
  let h := (List.range 8).foldl
    (fun (h : Nat) (r : Nat) => (List.range 8).foldl
      (fun (h : Nat) (c : Nat) =>
        let p := b.squares (r : Int) (c : Int)
        if p.type ≠ PieceType.None then
          if p.color = Color.White then
            h ^^^ Z.piece 0 (pieceTypeIndex p.type) (sq_index (r : Int) (c : Int))
          else if p.color = Color.Black then
            h ^^^ Z.piece 1 (pieceTypeIndex p.type) (sq_index (r : Int) (c : Int))
          else h
        else h)
      h)
    0
  let h := if b.side_to_move = Color.Black then h ^^^ Z.side else h
  let h := h ^^^ Z.castling (castle_index b)
  if 0 ≤ b.en_passant_col then h ^^^ Z.enpassant b.en_passant_col else h

/-!
The body of `make_move` (`src/make_move.cpp` lines 27-209) is translated
as a family of named definitions, one per block of the source, assembled
by `make_move` below; every definition carries the source lines it
renders.  Throughout, `piece` abbreviates the moving piece
`board.squares[m.from_row][m.from_col]` read before any write.
-/

/-- Lines 58-67: the type the moved piece ends up with (`final_type`):
the promotion piece for a promoting pawn, the original type otherwise
(the `switch` default keeps the original type). -/
def finalType (b : Board) (m : move) : PieceType :=
  if (b.squares m.from_row m.from_col).type = PieceType.Pawn then
    match m.promotion with
    | promotion_piece_type.QUEEN => PieceType.Queen
    | promotion_piece_type.ROOK => PieceType.Rook
    | promotion_piece_type.BISHOP => PieceType.Bishop
    | promotion_piece_type.KNIGHT => PieceType.Knight
    | promotion_piece_type.NONE => (b.squares m.from_row m.from_col).type
  else (b.squares m.from_row m.from_col).type

/-- Lines 73-77: the move is an en-passant capture: a pawn moving
diagonally to an empty square that matches the saved en-passant target. -/
def wasEpCond (b : Board) (m : move) : Prop :=
  (b.squares m.from_row m.from_col).type = PieceType.Pawn ∧
  m.from_col ≠ m.to_col ∧
  (b.squares m.to_row m.to_col).type = PieceType.None ∧
  b.en_passant_row = m.to_row ∧ b.en_passant_col = m.to_col

instance (b : Board) (m : move) : Decidable (wasEpCond b m) := by
  unfold wasEpCond; infer_instance

/-- Lines 126-141: the moved piece is a king moving two columns
(castling). -/
def castlingCond (b : Board) (m : move) : Prop :=
  (b.squares m.from_row m.from_col).type = PieceType.King ∧
  (m.to_col - m.from_col).natAbs = 2

instance (b : Board) (m : move) : Decidable (castlingCond b m) := by
  unfold castlingCond; infer_instance

/-- Lines 189-194: a pawn moved two rows from its starting row. -/
def pawnTwoCond (b : Board) (m : move) : Prop :=
  (b.squares m.from_row m.from_col).type = PieceType.Pawn ∧
  m.from_row = (if (b.squares m.from_row m.from_col).color = Color.White then 1 else 6) ∧
  (m.to_row - m.from_row).natAbs = 2

instance (b : Board) (m : move) : Decidable (pawnTwoCond b m) := by
  unfold pawnTwoCond; infer_instance

/-- Lines 53 and 80-84: the piece captured by the move; for en passant it
sits on (from_row, to_col), otherwise on the destination. -/
def capturedPiece (b : Board) (m : move) : Piece :=
  if wasEpCond b m then b.squares m.from_row m.to_col else b.squares m.to_row m.to_col

/-- Line 92: the squares after removing the en-passant captured pawn. -/
def mkSq0 (b : Board) (m : move) : Int → Int → Piece :=
  if wasEpCond b m then setSquare b.squares m.from_row m.to_col {} else b.squares

/-- Line 124: ... and after clearing the source square. -/
def mkSq1 (b : Board) (m : move) : Int → Int → Piece :=
  setSquare (mkSq0 b m) m.from_row m.from_col ({} : Piece)

/-- Lines 182-183: the piece placed on the destination. -/
def mkPiece2 (b : Board) (m : move) : Piece :=
  { type := finalType b m, color := (b.squares m.from_row m.from_col).color }

/-- Lines 141-162 and 183: the final squares: after the castling rook
move (kingside: corner 7 to column 5; queenside: corner 0 to column 3;
the rook is read after the source square was cleared, as in the source)
and placing the moved piece on the destination. -/
def mkSquares (b : Board) (m : move) : Int → Int → Piece :=
  let sq2 :=
    if castlingCond b m then
      (if 0 < m.to_col - m.from_col then
        setSquare (setSquare (mkSq1 b m) m.from_row 7 {}) m.from_row 5 (mkSq1 b m m.from_row 7)
      else
        setSquare (setSquare (mkSq1 b m) m.from_row 0 {}) m.from_row 3 (mkSq1 b m m.from_row 0))
    else mkSq1 b m
  setSquare sq2 m.to_row m.to_col (mkPiece2 b m)

/-- Lines 107-122, 126-139, 165-180: the four castling rights after the
move (capture of a rook on its corner / any king move / a rook moving
off its original square), each `if` in source order. -/
def mkWK (b : Board) (m : move) : Bool :=
  let wk := b.white_can_castle_kingside
  let wk := if ¬ wasEpCond b m ∧ (capturedPiece b m).type = PieceType.Rook ∧
      (capturedPiece b m).color = Color.White ∧ m.to_row = 0 ∧ m.to_col = 7 then false else wk
  let wk := if (b.squares m.from_row m.from_col).type = PieceType.King ∧
      (b.squares m.from_row m.from_col).color = Color.White then false else wk
  let wk := if (b.squares m.from_row m.from_col).type = PieceType.Rook ∧
      (b.squares m.from_row m.from_col).color = Color.White ∧
      m.from_row = 0 ∧ m.from_col = 7 then false else wk
  wk

/-- See `mkWK`. -/
def mkWQ (b : Board) (m : move) : Bool :=
  let wq := b.white_can_castle_queenside
  let wq := if ¬ wasEpCond b m ∧ (capturedPiece b m).type = PieceType.Rook ∧
      (capturedPiece b m).color = Color.White ∧ m.to_row = 0 ∧ m.to_col = 0 then false else wq
  let wq := if (b.squares m.from_row m.from_col).type = PieceType.King ∧
      (b.squares m.from_row m.from_col).color = Color.White then false else wq
  let wq := if (b.squares m.from_row m.from_col).type = PieceType.Rook ∧
      (b.squares m.from_row m.from_col).color = Color.White ∧
      m.from_row = 0 ∧ m.from_col = 0 then false else wq
  wq

/-- See `mkWK` (the king branch clears Black rights on the `else` of the
colour test, i.e. whenever the moving king is not White). -/
def mkBK (b : Board) (m : move) : Bool :=
  let bk := b.black_can_castle_kingside
  let bk := if ¬ wasEpCond b m ∧ (capturedPiece b m).type = PieceType.Rook ∧
      (capturedPiece b m).color = Color.Black ∧ m.to_row = 7 ∧ m.to_col = 7 then false else bk
  let bk := if (b.squares m.from_row m.from_col).type = PieceType.King ∧
      (b.squares m.from_row m.from_col).color ≠ Color.White then false else bk
  let bk := if (b.squares m.from_row m.from_col).type = PieceType.Rook ∧
      (b.squares m.from_row m.from_col).color = Color.Black ∧
      m.from_row = 7 ∧ m.from_col = 7 then false else bk
  bk

/-- See `mkBK`. -/
def mkBQ (b : Board) (m : move) : Bool :=
  let bq := b.black_can_castle_queenside
  let bq := if ¬ wasEpCond b m ∧ (capturedPiece b m).type = PieceType.Rook ∧
      (capturedPiece b m).color = Color.Black ∧ m.to_row = 7 ∧ m.to_col = 0 then false else bq
  let bq := if (b.squares m.from_row m.from_col).type = PieceType.King ∧
      (b.squares m.from_row m.from_col).color ≠ Color.White then false else bq
  let bq := if (b.squares m.from_row m.from_col).type = PieceType.Rook ∧
      (b.squares m.from_row m.from_col).color = Color.Black ∧
      m.from_row = 7 ∧ m.from_col = 0 then false else bq
  bq

/-- Lines 195-199: the new en-passant target row. -/
def mkEpRow (b : Board) (m : move) : Int :=
  if pawnTwoCond b m then
    m.from_row + (if (b.squares m.from_row m.from_col).color = Color.White then 1 else -1)
  else -1

/-- Lines 195-199: the new en-passant target column. -/
def mkEpCol (b : Board) (m : move) : Int :=
  if pawnTwoCond b m then m.from_col else -1

/-- The hash after all the XOR updates up to line 202 (before the new
castling key and the side key): XOR out the old en-passant file (if any)
and the old castling key; XOR out the moving piece at its source; XOR out
the captured piece (en passant or normal, when there is one); XOR the
castling rook out of its corner and into its new square; XOR in the
placed piece (with its final type); XOR in the new en-passant file after
a two-square pawn push. -/
def mkHash0 (Z : ZTables) (b : Board) (m : move) : Nat :=
  let piece := b.squares m.from_row m.from_col
  let h := b.zobrist_hash
  let h := if b.en_passant_col ≠ -1 then h ^^^ Z.enpassant b.en_passant_col else h
  let h := h ^^^ Z.castling (castle_index b)
  let h := h ^^^ Z.piece (zc piece.color) (pieceTypeIndex piece.type) (sq_index m.from_row m.from_col)
  let h :=
    if wasEpCond b m then
      (if (b.squares m.from_row m.to_col).type ≠ PieceType.None then
        h ^^^ Z.piece (zc (b.squares m.from_row m.to_col).color)
          (pieceTypeIndex (b.squares m.from_row m.to_col).type)
          (sq_index m.from_row m.to_col)
      else h)
    else
      (if (b.squares m.to_row m.to_col).type ≠ PieceType.None then
        h ^^^ Z.piece (zc (b.squares m.to_row m.to_col).color)
          (pieceTypeIndex (b.squares m.to_row m.to_col).type)
          (sq_index m.to_row m.to_col)
      else h)
  let h :=
    if castlingCond b m then
      (if 0 < m.to_col - m.from_col then
        let rook := mkSq1 b m m.from_row 7
        h ^^^ Z.piece (zc rook.color) (pieceTypeIndex rook.type) (sq_index m.from_row 7)
          ^^^ Z.piece (zc rook.color) (pieceTypeIndex rook.type) (sq_index m.from_row 5)
      else
        let rook := mkSq1 b m m.from_row 0
        h ^^^ Z.piece (zc rook.color) (pieceTypeIndex rook.type) (sq_index m.from_row 0)
          ^^^ Z.piece (zc rook.color) (pieceTypeIndex rook.type) (sq_index m.from_row 3))
    else h
  let h := h ^^^ Z.piece (zc piece.color) (pieceTypeIndex (finalType b m)) (sq_index m.to_row m.to_col)
  let h := if pawnTwoCond b m then h ^^^ Z.enpassant m.from_col else h
  h

/-- The board `make_move` produces on its main path (`pc >= 0`),
assembling the definitions above; lines 204-208 add the new castling key
and the side key to the hash and flip the side to move. -/
def mkBoard (Z : ZTables) (b : Board) (m : move) : Board :=
  let b2 : Board := {
    squares := mkSquares b m
    side_to_move := if b.side_to_move = Color.White then Color.Black else Color.White
    white_can_castle_kingside := mkWK b m
    white_can_castle_queenside := mkWQ b m
    black_can_castle_kingside := mkBK b m
    black_can_castle_queenside := mkBQ b m
    en_passant_row := mkEpRow b m
    en_passant_col := mkEpCol b m
    zobrist_hash := mkHash0 Z b m }
  { b2 with zobrist_hash := b2.zobrist_hash ^^^ Z.castling (castle_index b2) ^^^ Z.side }

/-- Lines 29-39, 80, 103-104: the undo record `make_move` fills in on its
main path. -/
def mkUndo (b : Board) (m : move) : Undo := {
  captured := capturedPiece b m
  moved_piece_type := (b.squares m.from_row m.from_col).type
  white_can_castle_kingside := b.white_can_castle_kingside
  white_can_castle_queenside := b.white_can_castle_queenside
  black_can_castle_kingside := b.black_can_castle_kingside
  black_can_castle_queenside := b.black_can_castle_queenside
  side_to_move := b.side_to_move
  en_passant_row := b.en_passant_row
  en_passant_col := b.en_passant_col
  was_en_passant := decide (wasEpCond b m)
  zobrist_hash := b.zobrist_hash }

/-- `make_move` of `src/make_move.cpp` (lines 27-209): the early return
for a colourless moving piece (`pc < 0`, unreachable for a generated
move) leaves the board with only the en-passant/castling hash updates and
the en-passant reset applied and the undo only snapshotted, exactly as
the C++ does; otherwise the result is `mkBoard` / `mkUndo` above. -/
def make_move (Z : ZTables) (board : Board) (m : move) : Board × Undo :=
  if zc (board.squares m.from_row m.from_col).color < 0 then
    let h0 := board.zobrist_hash
    let h0 := if board.en_passant_col ≠ -1 then h0 ^^^ Z.enpassant board.en_passant_col else h0
    let h0 := h0 ^^^ Z.castling (castle_index board)
    ({ board with zobrist_hash := h0, en_passant_row := -1, en_passant_col := -1 },
      { captured := {}
        moved_piece_type := PieceType.None
        white_can_castle_kingside := board.white_can_castle_kingside
        white_can_castle_queenside := board.white_can_castle_queenside
        black_can_castle_kingside := board.black_can_castle_kingside
        black_can_castle_queenside := board.black_can_castle_queenside
        side_to_move := board.side_to_move
        en_passant_row := board.en_passant_row
        en_passant_col := board.en_passant_col
        was_en_passant := false
        zobrist_hash := board.zobrist_hash })
  else (mkBoard Z board m, mkUndo board m)

/-- `unmake_move` of `src/make_move.cpp` (lines 218-275): restores side,
en passant, castling rights and hash verbatim from the undo record,
un-does the castling rook move, returns the moved piece (with its
pre-promotion type) to its source and restores the captured piece. -/
def unmake_move (board : Board) (m : move) (undo : Undo) : Board :=
  let piece := board.squares m.to_row m.to_col
  let sq0 :=
    if undo.moved_piece_type = PieceType.King ∧ (m.to_col - m.from_col).natAbs = 2 then
      (if m.to_col - m.from_col > 0 then
        setSquare (setSquare board.squares m.from_row 7 (board.squares m.from_row 5))
          m.from_row 5 {}
      else
        setSquare (setSquare board.squares m.from_row 0 (board.squares m.from_row 3))
          m.from_row 3 {})
    else board.squares
  let piece2 : Piece := { piece with type := undo.moved_piece_type }
  let sq1 := setSquare sq0 m.from_row m.from_col piece2
  let sq2 :=
    if ¬ undo.was_en_passant then
      setSquare sq1 m.to_row m.to_col undo.captured
    else
      setSquare (setSquare sq1 m.to_row m.to_col {}) m.from_row m.to_col undo.captured
  { squares := sq2
    side_to_move := undo.side_to_move
    white_can_castle_kingside := undo.white_can_castle_kingside
    white_can_castle_queenside := undo.white_can_castle_queenside
    black_can_castle_kingside := undo.black_can_castle_kingside
    black_can_castle_queenside := undo.black_can_castle_queenside
    en_passant_row := undo.en_passant_row
    en_passant_col := undo.en_passant_col
    zobrist_hash := undo.zobrist_hash }

/-- `make_starting_position` of `src/1_construct_board.cpp`: pawns on rows
1 and 6, the back ranks on rows 0 (White) and 7 (Black), White to move,
all castling rights, no en-passant target. -/
def make_starting_position : Board :=
  let back_rank : Color → Int → Piece := fun color col =>
    if col = 0 then { type := PieceType.Rook, color := color }
    else if col = 1 then { type := PieceType.Knight, color := color }
    else if col = 2 then { type := PieceType.Bishop, color := color }
    else if col = 3 then { type := PieceType.Queen, color := color }
    else if col = 4 then { type := PieceType.King, color := color }
    else if col = 5 then { type := PieceType.Bishop, color := color }
    else if col = 6 then { type := PieceType.Knight, color := color }
    else { type := PieceType.Rook, color := color }
  { squares := fun r c =>
      if r = 1 then { type := PieceType.Pawn, color := Color.White }
      else if r = 6 then { type := PieceType.Pawn, color := Color.Black }
      else if r = 0 then back_rank Color.White c
      else if r = 7 then back_rank Color.Black c
      else {}
    side_to_move := Color.White
    white_can_castle_kingside := true
    white_can_castle_queenside := true
    black_can_castle_kingside := true
    black_can_castle_queenside := true
    en_passant_row := -1
    en_passant_col := -1 }

/-- `is_valid_square`, identical in `src/2_generate_legal_moves.cpp` and
`src/attacks.cpp` (`BOARD_SIZE = 8`). -/
def is_valid_square (row col : Int) : Bool :=
  decide (0 ≤ row ∧ row < 8 ∧ 0 ≤ col ∧ col < 8)

/-- The knight offsets, identical in both source files. -/
def knight_offsets : List (Int × Int) :=
  [(2, 1), (2, -1), (-2, 1), (-2, -1), (1, 2), (1, -2), (-1, 2), (-1, -2)]

/-- The king offsets, identical in both source files. -/
def king_offsets : List (Int × Int) :=
  [(1, 0), (-1, 0), (0, 1), (0, -1), (1, 1), (1, -1), (-1, 1), (-1, -1)]

/-- The diagonal ray directions, identical in both source files. -/
def diag_dirs : List (Int × Int) := [(1, 1), (1, -1), (-1, 1), (-1, -1)]

/-- The orthogonal ray directions (`straight_dirs` in
2_generate_legal_moves.cpp, `queen_dirs` in attacks.cpp). -/
def straight_dirs : List (Int × Int) := [(1, 0), (-1, 0), (0, 1), (0, -1)]

/-- The three-direction orthogonal list `rook_dirs` of `src/attacks.cpp`
(its fourth direction `{0,-1}` is missing there). -/
def rook_dirs : List (Int × Int) := [(1, 0), (-1, 0), (0, 1)]

/-- One sliding scan `for (dist = 1; dist < 8; ++dist)` from
`(tr, tc)` along `(dr, dc)`: stop at the board edge (false) or at the
first occupied square, where `pred` decides; both attack oracles use this
loop shape verbatim.  `fuel` counts the remaining iterations, `dist` the
current distance. -/
def scan_ray (b : Board) (tr tc dr dc : Int) (pred : Piece → Bool) : Nat → Int → Bool
  | 0, _ => false
  | fuel + 1, dist =>
    let r := tr + dr * dist
    let c := tc + dc * dist
    if ¬ is_valid_square r c then false
    else
      let p := b.squares r c
      if p.type ≠ PieceType.None then pred p
      else scan_ray b tr tc dr dc pred fuel (dist + 1)

/-- The king-location scan shared by `is_in_check` in
`src/2_generate_legal_moves.cpp` (nested loops with breaks) and
`src/attacks.cpp` (the `row = BOARD_SIZE` break): the first square in
row-major order holding the king of `color`. -/
def find_king (b : Board) (color : Color) : Option (Int × Int) :=
  (((List.range 8).map fun r => (List.range 8).map fun c => ((r : Int), (c : Int))).flatten).find?
    fun rc => decide ((b.squares rc.1 rc.2).type = PieceType.King ∧
      (b.squares rc.1 rc.2).color = color)

namespace Movegen

/-- `is_attacked` of `src/2_generate_legal_moves.cpp` (lines 11-79):
pawn squares, knight offsets, diagonal rays (Bishop/Queen), the four
orthogonal rays (Rook/Queen), king offsets. -/
def is_attacked (b : Board) (target_row target_col : Int) (by_color : Color) : Bool :=
  let pawn_dir : Int := if by_color = Color.White then -1 else 1
  let pawnHit := [target_col - 1, target_col + 1].any fun col =>
    is_valid_square (target_row + pawn_dir) col &&
      decide ((b.squares (target_row + pawn_dir) col).type = PieceType.Pawn ∧
        (b.squares (target_row + pawn_dir) col).color = by_color)
  let knightHit := knight_offsets.any fun o =>
    is_valid_square (target_row + o.1) (target_col + o.2) &&
      decide ((b.squares (target_row + o.1) (target_col + o.2)).type = PieceType.Knight ∧
        (b.squares (target_row + o.1) (target_col + o.2)).color = by_color)
  let diagHit := diag_dirs.any fun d =>
    scan_ray b target_row target_col d.1 d.2
      (fun p => decide (p.color = by_color ∧ (p.type = PieceType.Bishop ∨ p.type = PieceType.Queen)))
      7 1
  let straightHit := straight_dirs.any fun d =>
    scan_ray b target_row target_col d.1 d.2
      (fun p => decide (p.color = by_color ∧ (p.type = PieceType.Rook ∨ p.type = PieceType.Queen)))
      7 1
  let kingHit := king_offsets.any fun o =>
    is_valid_square (target_row + o.1) (target_col + o.2) &&
      decide ((b.squares (target_row + o.1) (target_col + o.2)).type = PieceType.King ∧
        (b.squares (target_row + o.1) (target_col + o.2)).color = by_color)
  pawnHit || knightHit || diagHit || straightHit || kingHit

/-- `is_in_check` of `src/2_generate_legal_moves.cpp` (lines 81-170):
locate the king, then run the same attack scans inline with the enemy
colour (the body is a copy of `is_attacked` in the source too). -/
def is_in_check (b : Board) (color : Color) : Bool :=
  match find_king b color with
  | Option.none => false
  | Option.some kc =>
    let king_row := kc.1
    let king_col := kc.2
    let enemy := if color = Color.White then Color.Black else Color.White
    let pawn_dir : Int := if enemy = Color.White then -1 else 1
    let pawnHit := [king_col - 1, king_col + 1].any fun col =>
      is_valid_square (king_row + pawn_dir) col &&
        decide ((b.squares (king_row + pawn_dir) col).type = PieceType.Pawn ∧
          (b.squares (king_row + pawn_dir) col).color = enemy)
    let knightHit := knight_offsets.any fun o =>
      is_valid_square (king_row + o.1) (king_col + o.2) &&
        decide ((b.squares (king_row + o.1) (king_col + o.2)).type = PieceType.Knight ∧
          (b.squares (king_row + o.1) (king_col + o.2)).color = enemy)
    let diagHit := diag_dirs.any fun d =>
      scan_ray b king_row king_col d.1 d.2
        (fun p => decide (p.color = enemy ∧ (p.type = PieceType.Bishop ∨ p.type = PieceType.Queen)))
        7 1
    let straightHit := straight_dirs.any fun d =>
      scan_ray b king_row king_col d.1 d.2
        (fun p => decide (p.color = enemy ∧ (p.type = PieceType.Rook ∨ p.type = PieceType.Queen)))
        7 1
    let kingHit := king_offsets.any fun o =>
      is_valid_square (king_row + o.1) (king_col + o.2) &&
        decide ((b.squares (king_row + o.1) (king_col + o.2)).type = PieceType.King ∧
          (b.squares (king_row + o.1) (king_col + o.2)).color = enemy)
    pawnHit || knightHit || diagHit || straightHit || kingHit

/-- `add_move_if_valid` of `src/2_generate_legal_moves.cpp`: appends the
move when the destination is on the board and empty or enemy; the Bool is
the "blocked" result for sliding pieces. -/
def add_move_if_valid (b : Board) (from_row from_col to_row to_col : Int)
    (moves : List move) : List move × Bool :=
  if ¬ is_valid_square to_row to_col then (moves, true)
  else
    let source_piece := b.squares from_row from_col
    let target_piece := b.squares to_row to_col
    if target_piece.type = PieceType.None then
      (moves ++ [{ from_row := from_row, from_col := from_col, to_row := to_row, to_col := to_col }], false)
    else if target_piece.color ≠ source_piece.color then
      (moves ++ [{ from_row := from_row, from_col := from_col, to_row := to_row, to_col := to_col }], true)
    else (moves, true)

/-- `pawn_move_promotion` of `src/2_generate_legal_moves.cpp`: expand a
pawn move to the last rank into the four promotion moves. -/
def pawn_move_promotion (from_row from_col to_row to_col : Int) (color : Color)
    (moves : List move) : List move :=
  let promote_rank : Prop := (color = Color.White ∧ to_row = 7) ∨ (color = Color.Black ∧ to_row = 0)
  if ¬ promote_rank then
    moves ++ [{ from_row := from_row, from_col := from_col, to_row := to_row, to_col := to_col }]
  else
    moves ++
      [{ from_row := from_row, from_col := from_col, to_row := to_row, to_col := to_col,
         promotion := promotion_piece_type.QUEEN },
       { from_row := from_row, from_col := from_col, to_row := to_row, to_col := to_col,
         promotion := promotion_piece_type.ROOK },
       { from_row := from_row, from_col := from_col, to_row := to_row, to_col := to_col,
         promotion := promotion_piece_type.BISHOP },
       { from_row := from_row, from_col := from_col, to_row := to_row, to_col := to_col,
         promotion := promotion_piece_type.KNIGHT }]

/-- `generate_pawn_moves` of `src/2_generate_legal_moves.cpp` (lines
211-265): forward one (and two from the start row), diagonal captures,
and the en-passant capture. -/
def generate_pawn_moves (b : Board) (row col : Int) (moves : List move) : List move :=
  let piece := b.squares row col
  let direction : Int := if piece.color = Color.White then 1 else -1
  let start_row : Int := if piece.color = Color.White then 1 else 6
  let next_row := row + direction
  let moves :=
    if is_valid_square next_row col ∧ (b.squares next_row col).type = PieceType.None then
      let moves := pawn_move_promotion row col next_row col piece.color moves
      let two_steps_row := row + 2 * direction
      if row = start_row ∧ is_valid_square two_steps_row col ∧
          (b.squares two_steps_row col).type = PieceType.None then
        moves ++ [{ from_row := row, from_col := col, to_row := two_steps_row, to_col := col }]
      else moves
    else moves
  let moves := [col - 1, col + 1].foldl
    (fun moves next_col =>
      if is_valid_square next_row next_col ∧
          (b.squares next_row next_col).type ≠ PieceType.None ∧
          (b.squares next_row next_col).color ≠ piece.color then
        pawn_move_promotion row col next_row next_col piece.color moves
      else moves)
    moves
  if b.en_passant_col ≠ -1 ∧ row = (if piece.color = Color.White then 4 else 3) then
    [col - 1, col + 1].foldl
      (fun moves capture_col =>
        if capture_col = b.en_passant_col ∧
            (b.squares row b.en_passant_col).type = PieceType.Pawn ∧
            (b.squares row b.en_passant_col).color ≠ piece.color then
          moves ++ [{ from_row := row, from_col := col, to_row := next_row, to_col := capture_col }]
        else moves)
      moves
  else moves

/-- `generate_knight_moves` of `src/2_generate_legal_moves.cpp`. -/
def generate_knight_moves (b : Board) (row col : Int) (moves : List move) : List move :=
  knight_offsets.foldl
    (fun moves o => (add_move_if_valid b row col (row + o.1) (col + o.2) moves).1)
    moves

/-- The `dist` loop of `generate_sliding_moves`: extend along one
direction until blocked (`fuel` counts the remaining iterations, 7 at the
top since `dist < 8`). -/
def slide_loop (b : Board) (row col d_row d_col : Int) : Nat → Int → List move → List move
  | 0, _, moves => moves
  | fuel + 1, dist, moves =>
    let r := add_move_if_valid b row col (row + d_row * dist) (col + d_col * dist) moves
    if r.2 then r.1 else slide_loop b row col d_row d_col fuel (dist + 1) r.1

/-- `generate_sliding_moves` of `src/2_generate_legal_moves.cpp`. -/
def generate_sliding_moves (b : Board) (row col : Int) (dirs : List (Int × Int))
    (moves : List move) : List move :=
  dirs.foldl (fun moves d => slide_loop b row col d.1 d.2 7 1 moves) moves

/-- `generate_bishop_moves` of `src/2_generate_legal_moves.cpp`. -/
def generate_bishop_moves (b : Board) (row col : Int) (moves : List move) : List move :=
  generate_sliding_moves b row col diag_dirs moves

/-- `generate_rook_moves` of `src/2_generate_legal_moves.cpp`. -/
def generate_rook_moves (b : Board) (row col : Int) (moves : List move) : List move :=
  generate_sliding_moves b row col straight_dirs moves

/-- `generate_queen_moves` of `src/2_generate_legal_moves.cpp`. -/
def generate_queen_moves (b : Board) (row col : Int) (moves : List move) : List move :=
  generate_sliding_moves b row col (straight_dirs ++ diag_dirs) moves

/-- `generate_castling_moves` of `src/2_generate_legal_moves.cpp` (lines
310-378): king on its original square, the right still held, the squares
between king and rook empty, the rook in its corner; legality of the
traversed squares is checked by test-moving the king one square at a time
and calling `is_in_check` (note: the source never tests the square the
king starts on). -/
def generate_castling_moves (Z : ZTables) (b : Board) (row col : Int)
    (moves : List move) : List move :=
  let king := b.squares row col
  if king.type ≠ PieceType.King then moves
  else
    let color := king.color
    let back_rank : Int := if color = Color.White then 0 else 7
    if ¬ (row = back_rank ∧ col = 4) then moves
    else
      let can_kingside := if color = Color.White then b.white_can_castle_kingside
        else b.black_can_castle_kingside
      let moves :=
        if can_kingside ∧ (b.squares back_rank 5).type = PieceType.None ∧
            (b.squares back_rank 6).type = PieceType.None ∧
            (b.squares back_rank 7).type = PieceType.Rook ∧
            (b.squares back_rank 7).color = color then
          let temp := (make_move Z b { from_row := back_rank, from_col := 4, to_row := back_rank, to_col := 5 }).1
          if ¬ is_in_check temp color then
            let temp2 := (make_move Z temp { from_row := back_rank, from_col := 5, to_row := back_rank, to_col := 6 }).1
            if ¬ is_in_check temp2 color then
              moves ++ [{ from_row := back_rank, from_col := 4, to_row := back_rank, to_col := 6 }]
            else moves
          else moves
        else moves
      let can_queenside := if color = Color.White then b.white_can_castle_queenside
        else b.black_can_castle_queenside
      if can_queenside ∧ (b.squares back_rank 3).type = PieceType.None ∧
          (b.squares back_rank 2).type = PieceType.None ∧
          (b.squares back_rank 1).type = PieceType.None ∧
          (b.squares back_rank 0).type = PieceType.Rook ∧
          (b.squares back_rank 0).color = color then
        let temp := (make_move Z b { from_row := back_rank, from_col := 4, to_row := back_rank, to_col := 3 }).1
        if ¬ is_in_check temp color then
          let temp2 := (make_move Z temp { from_row := back_rank, from_col := 3, to_row := back_rank, to_col := 2 }).1
          if ¬ is_in_check temp2 color then
            moves ++ [{ from_row := back_rank, from_col := 4, to_row := back_rank, to_col := 2 }]
          else moves
        else moves
      else moves

/-- `generate_king_moves` of `src/2_generate_legal_moves.cpp`. -/
def generate_king_moves (Z : ZTables) (b : Board) (row col : Int)
    (moves : List move) : List move :=
  let moves := king_offsets.foldl
    (fun moves o => (add_move_if_valid b row col (row + o.1) (col + o.2) moves).1)
    moves
  generate_castling_moves Z b row col moves

/-- `generate_legal_moves` of `src/2_generate_legal_moves.cpp` (lines
396-443): generate pseudo-legal moves for every piece of the side to
move, then keep those after which the mover is not in check (the filter
applies `make_move` to a copy of the board). -/
def generate_legal_moves (Z : ZTables) (b : Board) : List move :=
  let pseudo := (List.range 8).foldl
    (fun (acc : List move) (r : Nat) => (List.range 8).foldl
      (fun (acc : List move) (c : Nat) =>
        let piece := b.squares (r : Int) (c : Int)
        if piece.color = b.side_to_move then
          match piece.type with
          | PieceType.Pawn => generate_pawn_moves b (r : Int) (c : Int) acc
          | PieceType.Knight => generate_knight_moves b (r : Int) (c : Int) acc
          | PieceType.Bishop => generate_bishop_moves b (r : Int) (c : Int) acc
          | PieceType.Rook => generate_rook_moves b (r : Int) (c : Int) acc
          | PieceType.Queen => generate_queen_moves b (r : Int) (c : Int) acc
          | PieceType.King => generate_king_moves Z b (r : Int) (c : Int) acc
          | PieceType.None => acc
        else acc)
      acc)
    []
  pseudo.filter fun m => ! is_in_check (make_move Z b m).1 b.side_to_move

end Movegen

namespace Attacks

/-- `is_attacked` of `src/attacks.cpp` (lines 11-94): like the oracle in
2_generate_legal_moves.cpp but the orthogonal rays are scanned twice;
first three directions for a Rook only (`rook_dirs`, missing `{0,-1}`),
then all four directions for Rook-or-Queen (`queen_dirs`). -/
def is_attacked (b : Board) (target_row target_col : Int) (by_color : Color) : Bool :=
  let pawn_dir : Int := if by_color = Color.White then -1 else 1
  let pawnHit := [target_col - 1, target_col + 1].any fun col =>
    is_valid_square (target_row + pawn_dir) col &&
      decide ((b.squares (target_row + pawn_dir) col).type = PieceType.Pawn ∧
        (b.squares (target_row + pawn_dir) col).color = by_color)
  let knightHit := knight_offsets.any fun o =>
    is_valid_square (target_row + o.1) (target_col + o.2) &&
      decide ((b.squares (target_row + o.1) (target_col + o.2)).type = PieceType.Knight ∧
        (b.squares (target_row + o.1) (target_col + o.2)).color = by_color)
  let diagHit := diag_dirs.any fun d =>
    scan_ray b target_row target_col d.1 d.2
      (fun p => decide (p.color = by_color ∧ (p.type = PieceType.Bishop ∨ p.type = PieceType.Queen)))
      7 1
  let rookHit := rook_dirs.any fun d =>
    scan_ray b target_row target_col d.1 d.2
      (fun p => decide (p.color = by_color ∧ p.type = PieceType.Rook))
      7 1
  let queenHit := straight_dirs.any fun d =>
    scan_ray b target_row target_col d.1 d.2
      (fun p => decide (p.color = by_color ∧ (p.type = PieceType.Rook ∨ p.type = PieceType.Queen)))
      7 1
  let kingHit := king_offsets.any fun o =>
    is_valid_square (target_row + o.1) (target_col + o.2) &&
      decide ((b.squares (target_row + o.1) (target_col + o.2)).type = PieceType.King ∧
        (b.squares (target_row + o.1) (target_col + o.2)).color = by_color)
  pawnHit || knightHit || diagHit || rookHit || queenHit || kingHit

/-- `is_in_check` of `src/attacks.cpp` (lines 96-116): locate the king
(first match in row-major order) and query `is_attacked` with the enemy
colour. -/
def is_in_check (b : Board) (color : Color) : Bool :=
  match find_king b color with
  | Option.none => false
  | Option.some kc =>
    let enemy := if color = Color.White then Color.Black else Color.White
    is_attacked b kc.1 kc.2 enemy

end Attacks

/-! ## Move ordering (src/4_select_best_move.cpp) -/

/-- `MATERIAL_VALUES` of `src/4_select_best_move.cpp` (indexed by the
piece-type enum value). -/
def MATERIAL_VALUES (t : PieceType) : Int :=
  match t with
  | PieceType.None => 0
  | PieceType.Pawn => 100
  | PieceType.Knight => 320
  | PieceType.Bishop => 330
  | PieceType.Rook => 500
  | PieceType.Queen => 900
  | PieceType.King => 0

/-- `is_capture_move` of `src/4_select_best_move.cpp` (lines 334-353):
destination holds an enemy piece, or the move is an en-passant capture. -/
def is_capture_move (b : Board) (m : move) : Bool :=
  let moving_piece := b.squares m.from_row m.from_col
  let target := b.squares m.to_row m.to_col
  if target.type ≠ PieceType.None ∧ target.color ≠ b.side_to_move then true
  else if moving_piece.type = PieceType.Pawn ∧ m.from_col ≠ m.to_col ∧
      target.type = PieceType.None ∧ b.en_passant_row = m.to_row ∧
      b.en_passant_col = m.to_col then true
  else false

/-- The global killer table `g_killers[64][2]` of
`src/4_select_best_move.cpp`, as a parameter: the two killer moves stored
at each depth. -/
def Killers := Int → move × move

/-- The global history table `g_history[2][64][64]` of
`src/4_select_best_move.cpp`, as a parameter:
colour index, from-square, to-square. -/
def HistoryTable := Int → Int → Int → Int

/-- `is_killer` of `src/4_select_best_move.cpp` (lines 189-201): does the
move match either killer slot at this depth (from/to squares only). -/
def is_killer (killers : Killers) (depth : Int) (m : move) : Bool :=
  if depth < 0 ∨ 64 ≤ depth then false
  else
    let k := killers depth
    decide ((k.1.from_row = m.from_row ∧ k.1.from_col = m.from_col ∧
        k.1.to_row = m.to_row ∧ k.1.to_col = m.to_col) ∨
      (k.2.from_row = m.from_row ∧ k.2.from_col = m.from_col ∧
        k.2.to_row = m.to_row ∧ k.2.to_col = m.to_col))

/-- `get_history_score` of `src/4_select_best_move.cpp` (lines 245-250). -/
def get_history_score (hist : HistoryTable) (side : Color) (m : move) : Int :=
  let color_idx : Int := if side = Color.White then 0 else 1
  hist color_idx (m.from_row * 8 + m.from_col) (m.to_row * 8 + m.to_col)

/-- `calculate_move_score` of `src/4_select_best_move.cpp` (lines
375-454): promotions 1000; captures (normal, then en passant)
`10 * victim - attacker`; castling 50; other king moves -20; rook moves
-10; minor piece leaving the back rank +10; killer 800; positive history
`min 700 (score / 15)`; otherwise 0.  The early `return`s of the source
are the if-chain here. -/
def calculate_move_score (killers : Killers) (hist : HistoryTable)
    (b : Board) (m : move) (depth : Int) : Int :=
  if m.promotion ≠ promotion_piece_type.NONE then 1000
  else
    let moving_piece := b.squares m.from_row m.from_col
    let attacker_value := MATERIAL_VALUES moving_piece.type
    let target := b.squares m.to_row m.to_col
    if target.type ≠ PieceType.None ∧ target.color ≠ b.side_to_move then
      10 * MATERIAL_VALUES target.type - attacker_value
    else if moving_piece.type = PieceType.Pawn ∧ m.from_col ≠ m.to_col ∧
        target.type = PieceType.None ∧ b.en_passant_row = m.to_row ∧
        b.en_passant_col = m.to_col then
      10 * MATERIAL_VALUES PieceType.Pawn - attacker_value
    else if moving_piece.type = PieceType.King ∧ (m.to_col - m.from_col).natAbs = 2 then 50
    else if moving_piece.type = PieceType.King then -20
    else if moving_piece.type = PieceType.Rook then -10
    else if (moving_piece.type = PieceType.Knight ∨ moving_piece.type = PieceType.Bishop) ∧
        ((moving_piece.color = Color.White ∧ m.from_row = 0) ∨
          (moving_piece.color = Color.Black ∧ m.from_row = 7)) then 10
    else if is_killer killers depth m then 800
    else if 0 < get_history_score hist b.side_to_move m then
      min 700 (get_history_score hist b.side_to_move m / 15)
    else 0

/-! ## The front end (src/src/main.cpp) -/

/-- The C-locale `std::isspace` set used by the trimming loops of
`parse_history` in `src/src/main.cpp`. -/
def isSpaceChar (c : Char) : Bool :=
  c == ' ' || c == '\t' || c == '\n' || c == '\x0b' || c == '\x0c' || c == '\r'

/-- The whitespace trimming of `parse_history` (`src/src/main.cpp` lines
141-146): pop spaces off the back (`dropWhile` on the reverse), then off
the front. -/
def trim_line (l : List Char) : List Char :=
  ((l.reverse.dropWhile isSpaceChar).reverse).dropWhile isSpaceChar

/-- `parse_move` of `src/src/main.cpp` (lines 70-91): characters 1-4 are
from-file, from-rank, to-file, to-rank; an optional fifth character maps
`q`/`r`/`b`/`k` to the promotion piece (any other fifth character, `n`
included, leaves the promotion `NONE`).  A line shorter than 4 characters
yields the invalid move (0,0,0,0). -/
def parse_move (move_str : List Char) : move :=
  if move_str.length < 4 then { from_row := 0, from_col := 0, to_row := 0, to_col := 0 }
  else
    let from_col := ((move_str.getD 0 ' ').toNat : Int) - (('a').toNat : Int)
    let from_row := ((move_str.getD 1 ' ').toNat : Int) - (('1').toNat : Int)
    let to_col := ((move_str.getD 2 ' ').toNat : Int) - (('a').toNat : Int)
    let to_row := ((move_str.getD 3 ' ').toNat : Int) - (('1').toNat : Int)
    let promotion :=
      if 5 ≤ move_str.length then
        match move_str.getD 4 ' ' with
        | 'q' => promotion_piece_type.QUEEN
        | 'r' => promotion_piece_type.ROOK
        | 'b' => promotion_piece_type.BISHOP
        | 'k' => promotion_piece_type.KNIGHT
        | _ => promotion_piece_type.NONE
      else promotion_piece_type.NONE
    { from_row := from_row, from_col := from_col, to_row := to_row, to_col := to_col,
      promotion := promotion }

/-- One line of the `parse_history` loop of `src/src/main.cpp` (lines
139-179) on the state (board, tracked position hashes, lines that were
reported as illegal): trim; skip a blank line; parse; check the parsed
move against `generate_legal_moves` (all fields compared); when it is not
there, record the error line — and then `make_move` is applied EITHER WAY
("Continue anyway" in the source), followed by the repetition-tracking
hash push. -/
def parse_history_step (Z : ZTables) (st : Board × List Nat × List (List Char))
    (line : List Char) : Board × List Nat × List (List Char) :=
  let t := trim_line line
  if t = [] then st
  else
    let m := parse_move t
    let is_valid := m ∈ Movegen.generate_legal_moves Z st.1
    let errs := if is_valid then st.2.2 else st.2.2 ++ [t]
    let b2 := (make_move Z st.1 m).1
    (b2, compute_zobrist Z b2 :: st.2.1, errs)

/-- `parse_history` of `src/src/main.cpp` (lines 125-184), with the file
contents given as the list of its lines: start from the starting
position, track its hash, then run `parse_history_step` over the lines.
(The hash list collects `add_position_to_history` calls; its order is
irrelevant to the claims.) -/
def parse_history (Z : ZTables) (lines : List (List Char)) :
    Board × List Nat × List (List Char) :=
  lines.foldl (parse_history_step Z)
    (make_starting_position, [compute_zobrist Z make_starting_position], [])

/-! ## The opening book (src/openings.cpp) -/

/-- `OPENING_BOOK` of `src/openings.cpp` (lines 6-340), the full literal
in source order.  The C++ `unordered_map` initialiser keeps the first
occurrence of a duplicated key (`insert` semantics), which is what
`List.find?` over this list returns. -/
def OPENING_BOOK : List (String × String) := [
  ("", "e2e4"),
  ("e2e4,e7e5", "g1f3"),
  ("e2e4,e7e5,g1f3,b8c6", "f1c4"),
  ("e2e4,e7e5,g1f3,b8c6,f1c4,f8c5", "c2c3"),
  ("e2e4,e7e5,g1f3,b8c6,f1c4,g8f6", "d2d3"),
  ("e2e4,e7e5,g1f3,g8f6", "b1c3"),
  ("e2e4,c7c5", "g1f3"),
  ("e2e4,c7c5,g1f3,d7d6", "d2d4"),
  ("e2e4,c7c5,g1f3,b8c6", "d2d4"),
  ("e2e4,c7c5,g1f3,e7e6", "d2d4"),
  ("e2e4,e7e6", "d2d4"),
  ("e2e4,e7e6,d2d4,d7d5", "b1c3"),
  ("e2e4,c7c6", "d2d4"),
  ("e2e4,c7c6,d2d4,d7d5", "b1c3"),
  ("e2e4,d7d5", "e4d5"),
  ("e2e4", "e7e5"),
  ("e2e4,g1f3", "b8c6"),
  ("e2e4,f1c4", "g8f6"),
  ("e2e4,d2d4", "e7e5"),
  ("e2e4,b1c3", "g8f6"),
  ("e2e4,e7e5,g1f3", "b8c6"),
  ("e2e4,e7e5,g1f3,b8c6,f1c4", "f8c5"),
  ("e2e4,e7e5,g1f3,b8c6,f1b5", "a7a6"),
  ("e2e4,e7e5,g1f3,b8c6,d2d4", "e5d4"),
  ("d2d4", "g8f6"),
  ("d2d4,g8f6,c2c4", "g7g6"),
  ("d2d4,g8f6,c2c4,g7g6,b1c3", "f8g7"),
  ("d2d4,g8f6,g1f3", "g7g6"),
  ("d2d4,g8f6,c1f4", "g7g6"),
  ("c2c4", "e7e5"),
  ("g1f3", "d7d5"),
  ("e2e4,e7e5,g1f3,b8c6,f1c4,f8c5,c2c3", "g8f6"),
  ("e2e4,e7e5,g1f3,b8c6,f1c4,f8c5,c2c3,g8f6,d2d4", "e5d4"),
  ("e2e4,c7c5,g1f3,d7d6,d2d4,c5d4", "f3d4"),
  ("e2e4,c7c5,g1f3,b8c6,d2d4,c5d4", "f3d4"),
  ("e2e4,e7e5,g1f3,b8c6,f1b5", "a7a6"),
  ("e2e4,e7e5,g1f3,b8c6,f1b5,a7a6", "b5a4"),
  ("e2e4,e7e5,g1f3,b8c6,f1b5,a7a6,b5a4,g8f6", "e1g1"),
  ("e2e4,e7e5,g1f3,b8c6,f1b5,a7a6,b5a4,g8f6,e1g1,f8e7", "f1e1"),
  ("e2e4,e7e5,g1f3,b8c6,f1b5,a7a6,b5a4,g8f6,e1g1,b7b5", "a4b3"),
  ("e2e4,e7e5,g1f3,b8c6,f1b5,g8f6", "e1g1"),
  ("e2e4,e7e5,g1f3,b8c6,f1b5,g8f6,e1g1,f6e4", "d2d4"),
  ("e2e4,e7e5,g1f3,b8c6,d2d4", "e5d4"),
  ("e2e4,e7e5,g1f3,b8c6,d2d4,e5d4,f3d4", "f8c5"),
  ("e2e4,e7e5,g1f3,b8c6,d2d4,e5d4,f3d4,g8f6", "d4c6"),
  ("e2e4,e7e6,d2d4,d7d5,e4e5", "c7c5"),
  ("e2e4,e7e6,d2d4,d7d5,b1c3,g8f6", "c1g5"),
  ("e2e4,e7e6,d2d4,d7d5,b1c3,f8b4", "e4e5"),
  ("e2e4,e7e6,d2d4,d7d5,b1c3,g8f6,c1g5,f8e7", "e4e5"),
  ("e2e4,c7c6,d2d4,d7d5,e4e5", "c8f5"),
  ("e2e4,c7c6,d2d4,d7d5,b1c3,d5e4", "c3e4"),
  ("e2e4,c7c6,d2d4,d7d5,b1c3,d5e4,c3e4,b8d7", "g1f3"),
  ("e2e4,c7c6,d2d4,d7d5,b1c3,d5e4,c3e4,c8f5", "e4g3"),
  ("e2e4,c7c5,g1f3,d7d6,d2d4,c5d4,f3d4,g8f6", "b1c3"),
  ("e2e4,c7c5,g1f3,d7d6,d2d4,c5d4,f3d4,g8f6,b1c3,a7a6", "c1e3"),
  ("e2e4,c7c5,g1f3,d7d6,d2d4,c5d4,f3d4,g8f6,b1c3,a7a6,c1e3,e7e5", "d4b3"),
  ("e2e4,c7c5,g1f3,b8c6,d2d4,c5d4,f3d4,g7g6", "b1c3"),
  ("e2e4,c7c5,g1f3,b8c6,d2d4,c5d4,f3d4,g7g6,b1c3,f8g7", "c1e3"),
  ("e2e4,c7c5,g1f3,e7e6,d2d4,c5d4,f3d4,a7a6", "b1c3"),
  ("e2e4,d7d5,e4d5,d8d5", "b1c3"),
  ("e2e4,d7d5,e4d5,d8d5,b1c3,d5a5", "d2d4"),
  ("e2e4,d7d5,e4d5,g8f6", "d2d4"),
  ("e2e4,d7d5,e4d5,d8d5,b1c3,d5a5,d2d4,g8f6", "g1f3"),
  ("e2e4,g8f6", "e4e5"),
  ("e2e4,g8f6,e4e5,f6d5", "d2d4"),
  ("e2e4,g8f6,e4e5,f6d5,d2d4,d7d6", "g1f3"),
  ("e2e4,d7d6", "d2d4"),
  ("e2e4,d7d6,d2d4,g8f6", "b1c3"),
  ("e2e4,d7d6,d2d4,g8f6,b1c3,g7g6", "f1c4"),
  ("e2e4,g7g6", "d2d4"),
  ("e2e4,g7g6,d2d4,f8g7", "b1c3"),
  ("d2d4,d7d5,c2c4", "e7e6"),
  ("d2d4,d7d5,c2c4,e7e6", "g8f6"),
  ("d2d4,d7d5,c2c4,e7e6,b1c3", "g8f6"),
  ("d2d4,d7d5,c2c4,c7c6", "g8f6"),
  ("d2d4,d7d5,c2c4,c7c6,g1f3", "g8f6"),
  ("d2d4,d7d5,c2c4,d5c4", "g1f3"),
  ("d2d4,g8f6,c2c4,g7g6,b1c3,f8g7,e2e4", "d7d6"),
  ("d2d4,g8f6,c2c4,g7g6,b1c3,f8g7,e2e4,d7d6,g1f3", "e8g8"),
  ("d2d4,g8f6,c2c4,g7g6,b1c3,f8g7,e2e4,d7d6,g1f3,e8g8,f1e2", "e7e5"),
  ("d2d4,g8f6,c2c4,g7g6,g1f3,f8g7", "b1c3"),
  ("d2d4,g8f6,c1f4", "d7d5"),
  ("d2d4,g8f6,c1f4,d7d5,e2e3", "e7e6"),
  ("d2d4,g8f6,c1f4,d7d5,e2e3,e7e6,g1f3", "f8d6"),
  ("d2d4,d7d5,c1f4", "g8f6"),
  ("d2d4,d7d5,c1f4,g8f6,e2e3", "e7e6"),
  ("c2c4,e7e5,b1c3", "g8f6"),
  ("c2c4,e7e5,b1c3,g8f6,g1f3", "b8c6"),
  ("c2c4,e7e5,b1c3,b8c6", "g1f3"),
  ("c2c4,g8f6", "g7g6"),
  ("c2c4,c7c5", "g1f3"),
  ("g1f3,d7d5,d2d4", "g8f6"),
  ("g1f3,g8f6", "d7d5"),
  ("g1f3,d7d5,g2g3", "g8f6"),
  ("b2b3", "e7e5"),
  ("b2b3,e7e5", "d7d5"),
  ("g2g3", "d7d5"),
  ("g2g3,d7d5,f1g2", "g8f6"),
  ("f2f4", "d7d5"),
  ("e2e4,c7c5,g1f3", "d7d6"),
  ("e2e4,c7c5,g1f3,d7d6,d2d4", "c5d4"),
  ("e2e4,c7c5,g1f3,d7d6,d2d4,c5d4,f3d4", "g8f6"),
  ("e2e4,c7c5,g1f3,d7d6,d2d4,c5d4,f3d4,g8f6,b1c3", "a7a6"),
  ("e2e4,c7c5,g1f3,d7d6,d2d4,c5d4,f3d4,g8f6,b1c3,a7a6,c1e3", "e7e5"),
  ("e2e4,c7c5,g1f3,d7d6,d2d4,c5d4,f3d4,g8f6,b1c3,a7a6,f1e2", "e7e5"),
  ("e2e4,c7c5,g1f3,b8c6", "d7d6"),
  ("e2e4,c7c5,g1f3,b8c6,d2d4,c5d4,f3d4", "g8f6"),
  ("e2e4,c7c5,g1f3,e7e6", "b8c6"),
  ("e2e4,c7c5,g1f3,e7e6,d2d4,c5d4,f3d4", "a7a6"),
  ("e2e4,c7c5,g1f3,d7d6,d2d4,c5d4,f3d4,g8f6,b1c3,g7g6", "c1e3"),
  ("e2e4,c7c5,g1f3,d7d6,d2d4,c5d4,f3d4,g8f6,b1c3,g7g6,c1e3", "f8g7"),
  ("e2e4,c7c5,g1f3,d7d6,d2d4,c5d4,f3d4,g8f6,b1c3,g7g6,c1e3,f8g7,f2f3", "e8g8"),
  ("d2d4,g8f6,c2c4,e7e6", "f8b4"),
  ("d2d4,g8f6,c2c4,e7e6,b1c3", "f8b4"),
  ("d2d4,g8f6,c2c4,e7e6,b1c3,f8b4,d1c2", "e8g8"),
  ("d2d4,g8f6,c2c4,e7e6,b1c3,f8b4,e2e3", "e8g8"),
  ("d2d4,g8f6,c2c4,e7e6,b1c3,f8b4,e2e3,e8g8,f1d3", "d7d5"),
  ("d2d4,g8f6,c2c4,e7e6,b1c3,f8b4,a2a3", "b4c3"),
  ("d2d4,g8f6,c2c4,e7e6,b1c3,f8b4,a2a3,b4c3,b2c3", "c7c5"),
  ("d2d4,g8f6,c2c4,e7e6,g1f3", "b7b6"),
  ("d2d4,g8f6,c2c4,e7e6,g1f3,b7b6,g2g3", "c8b7"),
  ("d2d4,g8f6,c2c4,e7e6,g1f3,b7b6,g2g3,c8b7,f1g2", "f8e7"),
  ("d2d4,g8f6,c2c4,e7e6,g1f3,b7b6,a2a3", "c8b7"),
  ("d2d4,g8f6,c2c4,e7e6,g1f3,b7b6,b1c3", "c8b7"),
  ("d2d4,g8f6,c2c4,g7g6,b1c3,d7d5", "c4d5"),
  ("d2d4,g8f6,c2c4,g7g6,b1c3,d7d5,c4d5", "f6d5"),
  ("d2d4,g8f6,c2c4,g7g6,b1c3,d7d5,c4d5,f6d5,e2e4", "d5c3"),
  ("d2d4,g8f6,c2c4,g7g6,b1c3,d7d5,c4d5,f6d5,e2e4,d5c3,b2c3", "f8g7"),
  ("d2d4,g8f6,c2c4,g7g6,b1c3,d7d5,g1f3", "f8g7"),
  ("d2d4,f7f5", "g1f3"),
  ("d2d4,f7f5,g1f3", "g8f6"),
  ("d2d4,f7f5,g1f3,g8f6,g2g3", "e7e6"),
  ("d2d4,f7f5,g1f3,g8f6,g2g3,e7e6,f1g2", "f8e7"),
  ("d2d4,f7f5,c2c4", "g8f6"),
  ("d2d4,f7f5,c2c4,g8f6,g2g3", "g7g6"),
  ("d2d4,g8f6,c2c4,c7c5", "d4d5"),
  ("d2d4,g8f6,c2c4,c7c5,d4d5,e7e6", "b1c3"),
  ("d2d4,g8f6,c2c4,c7c5,d4d5,e7e6,b1c3,e6d5", "c4d5"),
  ("d2d4,g8f6,c2c4,c7c5,d4d5,e7e6,b1c3,e6d5,c4d5,d7d6", "e2e4"),
  ("d2d4,g8f6,c2c4,e7e6,g1f3,f8b4", "c1d2"),
  ("d2d4,g8f6,c2c4,e7e6,g1f3,f8b4,c1d2", "b4d2"),
  ("d2d4,g8f6,c2c4,e7e6,g1f3,f8b4,c1d2,b4d2,d1d2", "e8g8"),
  ("d2d4,g8f6,c2c4,e7e6,g1f3,f8b4,b1d2", "b7b6"),
  ("d2d4,g8f6,c2c4,e7e6,g2g3", "d7d5"),
  ("d2d4,g8f6,c2c4,e7e6,g2g3,d7d5,f1g2", "f8e7"),
  ("d2d4,g8f6,c2c4,e7e6,g2g3,d7d5,f1g2,d5c4", "d1a4"),
  ("d2d4,g8f6,c2c4,e7e6,g2g3,d7d5,f1g2,f8e7,g1f3", "e8g8"),
  ("e2e4,e7e5,g1f3,b8c6,f1c4,g8f6", "d2d3"),
  ("e2e4,e7e5,g1f3,b8c6,f1c4,g8f6,d2d3", "f8e7"),
  ("e2e4,e7e5,g1f3,b8c6,f1c4,g8f6,d2d3,f8e7,e1g1", "e8g8"),
  ("e2e4,e7e5,g1f3,b8c6,f1c4,g8f6,f3g5", "d7d5"),
  ("e2e4,e7e5,g1f3,b8c6,f1c4,g8f6,f3g5,d7d5,e4d5", "b8a5"),
  ("e2e4,e7e5,g1f3,b8c6,b1c3", "g8f6"),
  ("e2e4,e7e5,g1f3,b8c6,b1c3,g8f6,f1b5", "f8b4"),
  ("e2e4,e7e5,g1f3,b8c6,b1c3,g8f6,d2d4", "e5d4"),
  ("e2e4,e7e5,f2f4", "f8c5"),
  ("e2e4,e7e5,f2f4,f8c5,g1f3", "d7d6"),
  ("e2e4,e7e5,b1c3", "g8f6"),
  ("e2e4,e7e5,b1c3,g8f6,f2f4", "d7d5"),
  ("e2e4,e7e5,b1c3,b8c6", "f1c4"),
  ("e2e4,e7e5,f1c4", "g8f6"),
  ("e2e4,e7e5,f1c4,g8f6,d2d3", "f8c5"),
  ("e2e4,e7e5,g1f3,g8f6", "f3e5"),
  ("e2e4,e7e5,g1f3,g8f6,f3e5,d7d6", "e5f3"),
  ("e2e4,e7e5,g1f3,g8f6,f3e5,d7d6,e5f3,f6e4", "d2d4"),
  ("e2e4,e7e5,g1f3,g8f6,b1c3", "b8c6"),
  ("e2e4,e7e5,g1f3,g8f6,d2d4", "f6e4"),
  ("e2e4,e7e5,g1f3,b8c6,f1c4,f8c5,c2c3,g8f6,d2d4,e5d4,c3d4", "c5b4"),
  ("e2e4,e7e5,g1f3,b8c6,f1c4,f8c5,d2d3", "g8f6"),
  ("e2e4,e7e5,g1f3,b8c6,f1c4,f8c5,d2d3,g8f6,c2c3", "d7d6"),
  ("e2e4,e7e5,g1f3,b8c6,f1c4,f8c5,d2d3,g8f6,e1g1", "d7d6"),
  ("e2e4,e7e5,g1f3,b8c6,f1c4,g8f6,d2d3,f8e7", "e1g1"),
  ("e2e4,e7e5,g1f3,b8c6,f1c4,f8c5,c2c3,g8f6,d2d3", "e1g1"),
  ("e2e4,e7e5,g1f3,b8c6,f1c4,f8c5,e1g1", "g8f6"),
  ("e2e4,e7e5,g1f3,b8c6,f1c4,g8f6,d2d3,f8e7,e1g1", "e8g8"),
  ("d2d4,g8f6,c2c4,g7g6,b1c3,f8g7,e2e4,d7d6,f1e2", "e8g8")]

/-- `history_to_key` of `src/openings.cpp` (lines 343-350): join the
history with commas (the loop appends `","` before every element but the
first). -/
def history_to_key (move_history : List String) : String :=
  String.intercalate "," move_history

/-- `parse_uci_move` of `src/openings.cpp` (lines 353-374).  Note: unlike
`parse_move` in `src/src/main.cpp`, this one maps `n` (not `k`) to a
knight promotion. -/
def parse_uci_move (uci : String) : move :=
  let cs := uci.toList
  if cs.length < 4 then { from_row := 0, from_col := 0, to_row := 0, to_col := 0 }
  else
    let from_col := ((cs.getD 0 ' ').toNat : Int) - (('a').toNat : Int)
    let from_row := ((cs.getD 1 ' ').toNat : Int) - (('1').toNat : Int)
    let to_col := ((cs.getD 2 ' ').toNat : Int) - (('a').toNat : Int)
    let to_row := ((cs.getD 3 ' ').toNat : Int) - (('1').toNat : Int)
    let promo :=
      if 5 ≤ cs.length then
        match cs.getD 4 ' ' with
        | 'q' => promotion_piece_type.QUEEN
        | 'r' => promotion_piece_type.ROOK
        | 'b' => promotion_piece_type.BISHOP
        | 'n' => promotion_piece_type.KNIGHT
        | _ => promotion_piece_type.NONE
      else promotion_piece_type.NONE
    { from_row := from_row, from_col := from_col, to_row := to_row, to_col := to_col,
      promotion := promo }

/-- `get_book_move` of `src/openings.cpp` (lines 376-391): the invalid
move (0,0,0,0) past 24 half-moves or off-book, otherwise the parsed
reply. -/
def get_book_move (move_history : List String) : move :=
  if 24 < move_history.length then { from_row := 0, from_col := 0, to_row := 0, to_col := 0 }
  else
    match OPENING_BOOK.find? (fun p => p.1 = history_to_key move_history) with
    | Option.some p => parse_uci_move p.2
    | Option.none => { from_row := 0, from_col := 0, to_row := 0, to_col := 0 }

/-! ## Definitions for the verification layer -/

/-- XOR-fold of `f` over `0..n-1` (the loop shape of `compute_zobrist`). -/
def xorFold (f : Nat → Nat) (n : Nat) : Nat :=
  (List.range n).foldl (fun h i => h ^^^ f i) 0

/-- The contribution of one square to `compute_zobrist`: the piece key
for an occupied square with a real colour, 0 otherwise (the body of the
double loop of `compute_zobrist`). -/
def zPieceContrib (Z : ZTables) (p : Piece) (r c : Int) : Nat :=
  if p.type ≠ PieceType.None ∧ p.color ≠ Color.None then
    Z.piece (zc p.color) (pieceTypeIndex p.type) (sq_index r c)
  else 0

/-- The piece-placement part of `compute_zobrist` as a double XOR-fold. -/
def pieceHash (Z : ZTables) (s : Int → Int → Piece) : Nat :=
  xorFold (fun r => xorFold (fun c => zPieceContrib Z (s (r : Int) (c : Int)) (r : Int) (c : Int)) 8) 8

/-- Well-formedness of a board state, satisfied by every state the
program reaches (`Reachable` below): a real side to move, an en-passant
column that is -1 or a file, and colourless squares exactly the empty
ones.  A board violating one of these corresponds to C++ states whose
very hashing is undefined behaviour (e.g. `Z_ENPASSANT[-5]`). -/
def WF (b : Board) : Prop :=
  b.side_to_move ≠ Color.None ∧
  (-1 ≤ b.en_passant_col ∧ b.en_passant_col < 8) ∧
  (∀ r : Nat, r < 8 → ∀ c : Nat, c < 8 →
    ((b.squares (r : Int) (c : Int)).color = Color.None ↔
      (b.squares (r : Int) (c : Int)).type = PieceType.None))

instance (b : Board) : Decidable (WF b) := by
  unfold WF; infer_instance

/-- A cell value the invariant of `WF` allows: empty (both fields `None`)
or a real piece (neither field `None`). -/
def GoodPiece (p : Piece) : Prop :=
  (p.color = Color.None ↔ p.type = PieceType.None)

/-- The boards the program can reach: the starting position, and any
board obtained from a reachable board by a legal move. -/
inductive Reachable (Z : ZTables) : Board → Prop where
  | start : Reachable Z make_starting_position
  | step (b : Board) (m : move) : Reachable Z b →
      m ∈ Movegen.generate_legal_moves Z b → Reachable Z (make_move Z b m).1

/-- What the pseudo-legal generator guarantees about a move it emits for
the piece on `(r, c)`: source square, destination in range and different
from the source, a pawn always changes row, and a two-column king move
comes from `generate_castling_moves` with all its guards. -/
def EmitFacts (b : Board) (r c : Int) (m : move) : Prop :=
  m.from_row = r ∧ m.from_col = c ∧
  (0 ≤ m.to_row ∧ m.to_row < 8) ∧ (0 ≤ m.to_col ∧ m.to_col < 8) ∧
  ¬ (m.to_row = r ∧ m.to_col = c) ∧
  ((b.squares r c).type = PieceType.Pawn → m.to_row ≠ r) ∧
  ((b.squares r c).type = PieceType.King → (m.to_col - c).natAbs = 2 →
    m.to_row = r ∧ c = 4 ∧
    ((m.to_col = 6 ∧ (b.squares r 5).type = PieceType.None ∧
        (b.squares r 7).type = PieceType.Rook ∧ (b.squares r 7).color = (b.squares r c).color) ∨
      (m.to_col = 2 ∧ (b.squares r 3).type = PieceType.None ∧
        (b.squares r 0).type = PieceType.Rook ∧ (b.squares r 0).color = (b.squares r c).color)))

/-- The facts about a legal move that the `make_move`/`unmake_move`
reasoning uses (`legal_move_facts` derives them from membership in
`generate_legal_moves`). -/
structure MoveFacts (b : Board) (m : move) : Prop where
  from_row_range : 0 ≤ m.from_row ∧ m.from_row < 8
  from_col_range : 0 ≤ m.from_col ∧ m.from_col < 8
  to_row_range : 0 ≤ m.to_row ∧ m.to_row < 8
  to_col_range : 0 ≤ m.to_col ∧ m.to_col < 8
  color_eq : (b.squares m.from_row m.from_col).color = b.side_to_move
  type_ne : (b.squares m.from_row m.from_col).type ≠ PieceType.None
  ne_dest : ¬ (m.to_row = m.from_row ∧ m.to_col = m.from_col)
  pawn_to_row : (b.squares m.from_row m.from_col).type = PieceType.Pawn → m.to_row ≠ m.from_row
  king_two : (b.squares m.from_row m.from_col).type = PieceType.King →
    (m.to_col - m.from_col).natAbs = 2 →
    m.to_row = m.from_row ∧ m.from_col = 4 ∧
    ((m.to_col = 6 ∧ (b.squares m.from_row 5).type = PieceType.None ∧
        (b.squares m.from_row 7).type = PieceType.Rook ∧
        (b.squares m.from_row 7).color = (b.squares m.from_row m.from_col).color) ∨
      (m.to_col = 2 ∧ (b.squares m.from_row 3).type = PieceType.None ∧
        (b.squares m.from_row 0).type = PieceType.Rook ∧
        (b.squares m.from_row 0).color = (b.squares m.from_row m.from_col).color))

/-- How many kings of `color` the board holds (for the one-king-per-side
hypothesis of C3). -/
def king_count (b : Board) (color : Color) : Nat :=
  (List.range 8).foldl
    (fun (n : Nat) (r : Nat) => (List.range 8).foldl
      (fun (n : Nat) (c : Nat) =>
        if (b.squares (r : Int) (c : Int)).type = PieceType.King ∧
            (b.squares (r : Int) (c : Int)).color = color then n + 1 else n)
      n)
    0

/-- The victim value MVV-LVA scores a capture with (`calculate_move_score`
lines 386-408): the destination piece for a normal capture, a pawn for an
en-passant capture. -/
def victim_value (b : Board) (m : move) : Int :=
  if (b.squares m.to_row m.to_col).type ≠ PieceType.None ∧
      (b.squares m.to_row m.to_col).color ≠ b.side_to_move then
    MATERIAL_VALUES (b.squares m.to_row m.to_col).type
  else MATERIAL_VALUES PieceType.Pawn

/-- The attacker value MVV-LVA scores a capture with: the moving piece. -/
def attacker_value (b : Board) (m : move) : Int :=
  MATERIAL_VALUES (b.squares m.from_row m.from_col).type

/-! ## Concrete fixtures for witnesses and counterexamples -/

/-- A concrete, nontrivial Zobrist key table used to instantiate the
table-generic theorems on concrete inputs (the theorems hold for every
table; see the header comment). -/
def Ztest : ZTables := {
  piece := fun c k s => ((c.toNat + 1) * 4096 + (k.toNat + 1) * 512 + (s.toNat + 7)) % 65536
  side := 33333
  castling := fun i => i.toNat * 257 + 5
  enpassant := fun f => f.toNat * 1031 + 9 }

/-- The cleared killer table (`clear_killers` stores `move(0,0,0,0)`). -/
def emptyKillers : Killers :=
  fun _ => ({ from_row := 0, from_col := 0, to_row := 0, to_col := 0 },
    { from_row := 0, from_col := 0, to_row := 0, to_col := 0 })

/-- The cleared history table (`clear_history`). -/
def emptyHistory : HistoryTable := fun _ _ _ => 0

/-- The move e2e4 (from (1,4) to (3,4)). -/
def mv_e2e4 : move := { from_row := 1, from_col := 4, to_row := 3, to_col := 4 }

/-- White kingside castling, e1g1. -/
def mv_e1g1 : move := { from_row := 0, from_col := 4, to_row := 0, to_col := 6 }

/-- C4's failing position: White Ke1 and Rh1 with the kingside castling
right, Black Nd3 (giving check to e1 but attacking neither f1 nor g1)
and Ke8; White to move and in check. -/
def cbC4 : Board := {
  squares := fun r c =>
    if r = 0 ∧ c = 4 then { type := PieceType.King, color := Color.White }
    else if r = 0 ∧ c = 7 then { type := PieceType.Rook, color := Color.White }
    else if r = 2 ∧ c = 3 then { type := PieceType.Knight, color := Color.Black }
    else if r = 7 ∧ c = 4 then { type := PieceType.King, color := Color.Black }
    else {}
  side_to_move := Color.White
  white_can_castle_kingside := true
  white_can_castle_queenside := false
  black_can_castle_kingside := false
  black_can_castle_queenside := false }

/-- C8's position: White Qa1, Pb2, Pd4, Pa7, Kh1; Black Ba2, Nc3, Re5,
Qb8, Kh8; White to move.  Captures available: QxB (a1xa2), PxN (b2xc3),
PxR (d4xe5) and the capture-promotion PxQ (a7xb8=Q). -/
def cbC8 : Board := {
  squares := fun r c =>
    if r = 0 ∧ c = 0 then { type := PieceType.Queen, color := Color.White }
    else if r = 1 ∧ c = 0 then { type := PieceType.Bishop, color := Color.Black }
    else if r = 1 ∧ c = 1 then { type := PieceType.Pawn, color := Color.White }
    else if r = 2 ∧ c = 2 then { type := PieceType.Knight, color := Color.Black }
    else if r = 3 ∧ c = 3 then { type := PieceType.Pawn, color := Color.White }
    else if r = 4 ∧ c = 4 then { type := PieceType.Rook, color := Color.Black }
    else if r = 6 ∧ c = 0 then { type := PieceType.Pawn, color := Color.White }
    else if r = 7 ∧ c = 1 then { type := PieceType.Queen, color := Color.Black }
    else if r = 0 ∧ c = 7 then { type := PieceType.King, color := Color.White }
    else if r = 7 ∧ c = 7 then { type := PieceType.King, color := Color.Black }
    else {}
  side_to_move := Color.White }

/-- Queen takes bishop, a1xa2 (victim 330, attacker 900). -/
def mv_QxB : move := { from_row := 0, from_col := 0, to_row := 1, to_col := 0 }

/-- Pawn takes knight, b2xc3 (victim 320, attacker 100). -/
def mv_PxN : move := { from_row := 1, from_col := 1, to_row := 2, to_col := 2 }

/-- Pawn takes rook, d4xe5 (victim 500, attacker 100). -/
def mv_PxR : move := { from_row := 3, from_col := 3, to_row := 4, to_col := 4 }

/-- Pawn takes queen and promotes, a7xb8=Q (victim 900, attacker 100). -/
def mv_PxQprom : move :=
  { from_row := 6, from_col := 0, to_row := 7, to_col := 1,
    promotion := promotion_piece_type.QUEEN }

/-- The history line "e2e5" (an illegal move from the starting
position: the e2 pawn cannot reach e5 in one move). -/
def lineE2E5 : List Char := ['e', '2', 'e', '5']

/-- The `parse_history` fold state at the starting position (board,
tracked hashes, reported lines) under `Ztest`. -/
def st0C6 : Board × List Nat × List (List Char) :=
  (make_starting_position, [compute_zobrist Ztest make_starting_position], [])

/-- The starting position with its hash initialised the way `main`
initialises it (`board.zobrist_hash = compute_zobrist(board)`). -/
def stHashed : Board :=
  { make_starting_position with zobrist_hash := compute_zobrist Ztest make_starting_position }

/-! ## XOR algebra and square-update lemmas -/

theorem xor_left_comm (a b c : Nat) : a ^^^ (b ^^^ c) = b ^^^ (a ^^^ c) := by
  rw [← Nat.xor_assoc, Nat.xor_comm a b, Nat.xor_assoc]

theorem xor_self_left (a b : Nat) : a ^^^ (a ^^^ b) = b := by
  rw [← Nat.xor_assoc, Nat.xor_self, Nat.zero_xor]

theorem setSquare_self (s : Int → Int → Piece) (r c : Int) (p : Piece) :
    setSquare s r c p r c = p := by
  simp [setSquare]

theorem setSquare_ne (s : Int → Int → Piece) {r c r2 c2 : Int} (p : Piece)
    (h : ¬ (r2 = r ∧ c2 = c)) : setSquare s r c p r2 c2 = s r2 c2 := by
  simp [setSquare, h]

theorem foldl_xor_shift (f : Nat → Nat) (l : List Nat) (a : Nat) :
    l.foldl (fun h i => h ^^^ f i) a = a ^^^ l.foldl (fun h i => h ^^^ f i) 0 := by
  induction l generalizing a with
  | nil => simp
  | cons x t ih =>
    simp only [List.foldl_cons]
    rw [ih (a ^^^ f x), ih (0 ^^^ f x), Nat.zero_xor, Nat.xor_assoc]

theorem xorFold_succ (f : Nat → Nat) (n : Nat) :
    xorFold f (n + 1) = xorFold f n ^^^ f n := by
  unfold xorFold
  rw [List.range_succ, List.foldl_append]
  rfl

theorem xorFold_congr (f g : Nat → Nat) {n : Nat} (h : ∀ i, i < n → f i = g i) :
    xorFold f n = xorFold g n := by
  induction n with
  | zero => rfl
  | succ n ih =>
    rw [xorFold_succ, xorFold_succ, ih fun i hi => h i (Nat.lt_succ_of_lt hi),
      h n (Nat.lt_succ_self n)]

theorem xorFold_update {f g : Nat → Nat} {n : Nat} (i₀ : Nat) (hi : i₀ < n)
    (hfg : ∀ i, i < n → i ≠ i₀ → g i = f i) :
    xorFold g n = xorFold f n ^^^ (f i₀ ^^^ g i₀) := by
  induction n with
  | zero => omega
  | succ n ih =>
    rcases Nat.lt_succ_iff_lt_or_eq.mp hi with h | h
    · rw [xorFold_succ, xorFold_succ,
        ih h (fun i h1 h2 => hfg i (Nat.lt_succ_of_lt h1) h2),
        hfg n (Nat.lt_succ_self n) (by omega)]
      simp [Nat.xor_assoc, Nat.xor_comm, xor_left_comm]
    · subst h
      rw [xorFold_succ, xorFold_succ,
        xorFold_congr g f (fun i hi2 => hfg i (Nat.lt_succ_of_lt hi2) (by omega))]
      simp [Nat.xor_assoc, xor_self_left]

theorem zPieceContrib_empty (Z : ZTables) (r c : Int) :
    zPieceContrib Z {} r c = 0 := by
  simp [zPieceContrib]

/-- `compute_zobrist` split into the piece part and the three feature
keys. -/
theorem compute_zobrist_eq (Z : ZTables) (b : Board) :
    compute_zobrist Z b = pieceHash Z b.squares ^^^
      ((if b.side_to_move = Color.Black then Z.side else 0) ^^^
        (Z.castling (castle_index b) ^^^
          (if 0 ≤ b.en_passant_col then Z.enpassant b.en_passant_col else 0))) := by
  have inner_eq : ∀ (r : Nat) (h : Nat),
      (List.range 8).foldl
        (fun (h : Nat) (c : Nat) =>
          let p := b.squares (r : Int) (c : Int)
          if p.type ≠ PieceType.None then
            if p.color = Color.White then
              h ^^^ Z.piece 0 (pieceTypeIndex p.type) (sq_index (r : Int) (c : Int))
            else if p.color = Color.Black then
              h ^^^ Z.piece 1 (pieceTypeIndex p.type) (sq_index (r : Int) (c : Int))
            else h
          else h)
        h
      = (List.range 8).foldl
        (fun (h : Nat) (c : Nat) => h ^^^ zPieceContrib Z (b.squares (r : Int) (c : Int)) (r : Int) (c : Int)) h := by
    intro r h
    apply List.foldl_ext
    intro h c _
    by_cases ht : (b.squares (r : Int) (c : Int)).type = PieceType.None
    · simp [ht, zPieceContrib]
    · cases hcol : (b.squares (r : Int) (c : Int)).color <;>
        simp [ht, hcol, zPieceContrib, zc]
  have outer_eq :
      (List.range 8).foldl
        (fun (h : Nat) (r : Nat) => (List.range 8).foldl
          (fun (h : Nat) (c : Nat) =>
            let p := b.squares (r : Int) (c : Int)
            if p.type ≠ PieceType.None then
              if p.color = Color.White then
                h ^^^ Z.piece 0 (pieceTypeIndex p.type) (sq_index (r : Int) (c : Int))
              else if p.color = Color.Black then
                h ^^^ Z.piece 1 (pieceTypeIndex p.type) (sq_index (r : Int) (c : Int))
              else h
            else h)
          h)
        0 = pieceHash Z b.squares := by
    unfold pieceHash xorFold
    apply List.foldl_ext
    intro h r _
    rw [inner_eq r h, foldl_xor_shift]
  unfold compute_zobrist
  rw [outer_eq]
  split_ifs <;> simp [Nat.xor_assoc, Nat.xor_zero, Nat.zero_xor]

/-- Updating one in-range square changes `pieceHash` by the XOR of the
old and new contributions of that square. -/
theorem pieceHash_setSquare (Z : ZTables) (s : Int → Int → Piece) {r c : Int} (p : Piece)
    (hr0 : 0 ≤ r) (hr8 : r < 8) (hc0 : 0 ≤ c) (hc8 : c < 8) :
    pieceHash Z (setSquare s r c p)
      = pieceHash Z s ^^^ (zPieceContrib Z (s r c) r c ^^^ zPieceContrib Z p r c) := by
  obtain ⟨rn, rfl⟩ : ∃ n : Nat, r = (n : Int) := ⟨r.toNat, (Int.toNat_of_nonneg hr0).symm⟩
  obtain ⟨cn, rfl⟩ : ∃ n : Nat, c = (n : Int) := ⟨c.toNat, (Int.toNat_of_nonneg hc0).symm⟩
  have hrn8 : rn < 8 := by omega
  have hcn8 : cn < 8 := by omega
  unfold pieceHash
  have hfg_inner : ∀ i, i < 8 → i ≠ cn →
      zPieceContrib Z (setSquare s (rn : Int) (cn : Int) p (rn : Int) (i : Int)) (rn : Int) (i : Int)
        = zPieceContrib Z (s (rn : Int) (i : Int)) (rn : Int) (i : Int) := by
    intro i _ hne
    simp [setSquare, Nat.cast_inj, hne]
  have houter : ∀ i, i < 8 → i ≠ rn →
      xorFold (fun cc => zPieceContrib Z
          (setSquare s (rn : Int) (cn : Int) p (i : Int) (cc : Int)) (i : Int) (cc : Int)) 8
        = xorFold (fun cc => zPieceContrib Z (s (i : Int) (cc : Int)) (i : Int) (cc : Int)) 8 := by
    intro i _ hne
    apply xorFold_congr
    intro j _
    simp [setSquare, Nat.cast_inj, hne]
  rw [xorFold_update rn hrn8 houter]
  congr 1
  rw [xorFold_update cn hcn8 hfg_inner, setSquare_self, xor_self_left]

/-! ## What membership in the generated move list implies -/

/-- Generic accumulator lemma: a fold whose step only appends can only
produce a member of the seed or a move one step emitted. -/
theorem mem_foldl_or {β : Type} {step : List move → β → List move} (Q : β → move → Prop) :
    ∀ (l : List β),
      (∀ acc x, x ∈ l → ∀ m2, m2 ∈ step acc x → m2 ∈ acc ∨ Q x m2) →
      ∀ (acc : List move) (m2 : move),
        m2 ∈ l.foldl step acc → m2 ∈ acc ∨ ∃ x ∈ l, Q x m2 := by
  intro l
  induction l with
  | nil => intro _ acc m2 h; exact Or.inl h
  | cons x t ih =>
    intro hstep acc m2 h
    rcases ih (fun acc2 y hy m3 h3 => hstep acc2 y (List.mem_cons_of_mem x hy) m3 h3)
        (step acc x) m2 h with h2 | ⟨y, hy, hq⟩
    · rcases hstep acc x (List.mem_cons_self x t) m2 h2 with h3 | h3
      · exact Or.inl h3
      · exact Or.inr ⟨x, List.mem_cons_self x t, h3⟩
    · exact Or.inr ⟨y, List.mem_cons_of_mem x hy, hq⟩

theorem mem_add_move_if_valid {b : Board} {fr fc tr tc : Int} {moves : List move} {m : move}
    (h : m ∈ (Movegen.add_move_if_valid b fr fc tr tc moves).1) :
    m ∈ moves ∨
      (m = { from_row := fr, from_col := fc, to_row := tr, to_col := tc } ∧
        is_valid_square tr tc = true) := by
  unfold Movegen.add_move_if_valid at h
  by_cases hv : is_valid_square tr tc
  · simp only [hv, not_true, if_neg, if_false] at h
    split at h <;> [skip; split at h] <;>
      simp only [List.mem_append, List.mem_singleton] at h <;>
      first
        | (rcases h with h | h
           · exact Or.inl h
           · exact Or.inr ⟨h, hv⟩)
        | exact Or.inl h
  · simp only [hv] at h
    simp at h
    exact Or.inl h

theorem mem_pawn_move_promotion {fr fc tr tc : Int} {color : Color} {moves : List move}
    {m : move} (h : m ∈ Movegen.pawn_move_promotion fr fc tr tc color moves) :
    m ∈ moves ∨ (m.from_row = fr ∧ m.from_col = fc ∧ m.to_row = tr ∧ m.to_col = tc) := by
  unfold Movegen.pawn_move_promotion at h
  dsimp only at h
  split at h <;>
    simp only [List.mem_append, List.mem_singleton, List.mem_cons, List.not_mem_nil,
      or_false] at h <;>
    rcases h with h | h
  · exact Or.inl h
  · subst h; exact Or.inr ⟨rfl, rfl, rfl, rfl⟩
  · exact Or.inl h
  · rcases h with h | h | h | h <;> (subst h; exact Or.inr ⟨rfl, rfl, rfl, rfl⟩)

theorem mem_slide_loop {b : Board} {row col dr dc : Int} :
    ∀ (fuel : Nat) (dist : Int) (moves : List move) (m : move),
      m ∈ Movegen.slide_loop b row col dr dc fuel dist moves →
      m ∈ moves ∨ ∃ k : Int, dist ≤ k ∧
        m = { from_row := row, from_col := col, to_row := row + dr * k, to_col := col + dc * k } ∧
        is_valid_square (row + dr * k) (col + dc * k) = true := by
  intro fuel
  induction fuel with
  | zero => intro dist moves m h; exact Or.inl h
  | succ fuel ih =>
    intro dist moves m h
    unfold Movegen.slide_loop at h
    by_cases hb : (Movegen.add_move_if_valid b row col (row + dr * dist) (col + dc * dist) moves).2
    · rw [if_pos hb] at h
      rcases mem_add_move_if_valid h with h2 | ⟨h2, h3⟩
      · exact Or.inl h2
      · exact Or.inr ⟨dist, le_refl dist, h2, h3⟩
    · rw [if_neg hb] at h
      rcases ih (dist + 1) _ m h with h2 | ⟨k, hk, h3, h4⟩
      · rcases mem_add_move_if_valid h2 with h5 | ⟨h5, h6⟩
        · exact Or.inl h5
        · exact Or.inr ⟨dist, le_refl dist, h5, h6⟩
      · exact Or.inr ⟨k, by omega, h3, h4⟩

theorem mem_generate_sliding {b : Board} {row col : Int} {dirs : List (Int × Int)}
    {moves : List move} {m : move}
    (h : m ∈ Movegen.generate_sliding_moves b row col dirs moves) :
    m ∈ moves ∨ ∃ d ∈ dirs, ∃ k : Int, 1 ≤ k ∧
      m = { from_row := row, from_col := col, to_row := row + d.1 * k, to_col := col + d.2 * k } ∧
      is_valid_square (row + d.1 * k) (col + d.2 * k) = true := by
  unfold Movegen.generate_sliding_moves at h
  refine mem_foldl_or
    (fun d m2 => ∃ k : Int, 1 ≤ k ∧
      m2 = { from_row := row, from_col := col, to_row := row + d.1 * k, to_col := col + d.2 * k } ∧
      is_valid_square (row + d.1 * k) (col + d.2 * k) = true)
    dirs ?_ moves m h
  intro acc d _ m2 h2
  rcases mem_slide_loop 7 1 acc m2 h2 with h3 | ⟨k, hk, h4, h5⟩
  · exact Or.inl h3
  · exact Or.inr ⟨k, hk, h4, h5⟩

theorem mem_offsets_fold {b : Board} {row col : Int} {offs : List (Int × Int)}
    {moves : List move} {m : move}
    (h : m ∈ offs.foldl
      (fun moves o => (Movegen.add_move_if_valid b row col (row + o.1) (col + o.2) moves).1)
      moves) :
    m ∈ moves ∨ ∃ o ∈ offs,
      m = { from_row := row, from_col := col, to_row := row + o.1, to_col := col + o.2 } ∧
      is_valid_square (row + o.1) (col + o.2) = true := by
  refine mem_foldl_or
    (fun o m2 =>
      m2 = { from_row := row, from_col := col, to_row := row + o.1, to_col := col + o.2 } ∧
      is_valid_square (row + o.1) (col + o.2) = true)
    offs ?_ moves m h
  intro acc o _ m2 h2
  exact mem_add_move_if_valid h2

theorem mem_generate_pawn {b : Board} {row col : Int} {moves : List move} {m : move}
    (hep : -1 ≤ b.en_passant_col ∧ b.en_passant_col < 8)
    (h : m ∈ Movegen.generate_pawn_moves b row col moves) :
    m ∈ moves ∨ (m.from_row = row ∧ m.from_col = col ∧ m.to_row ≠ row ∧
      (0 ≤ m.to_row ∧ m.to_row < 8) ∧ (0 ≤ m.to_col ∧ m.to_col < 8)) := by
  unfold Movegen.generate_pawn_moves at h
  dsimp only at h
  set dir : Int := if (b.squares row col).color = Color.White then 1 else -1 with hd
  have hdir : dir = 1 ∨ dir = -1 := by
    rw [hd]; split <;> simp
  set epr : Int := if (b.squares row col).color = Color.White then 4 else 3 with he
  have hepr : epr = 4 ∨ epr = 3 := by
    rw [he]; split <;> simp
  set srow : Int := if (b.squares row col).color = Color.White then 1 else 6 with hs
  clear_value dir epr srow
  -- peel the en-passant stage
  have hcap : m ∈ List.foldl
      (fun moves2 next_col =>
        if is_valid_square (row + dir) next_col ∧
            (b.squares (row + dir) next_col).type ≠ PieceType.None ∧
            (b.squares (row + dir) next_col).color ≠ (b.squares row col).color then
          Movegen.pawn_move_promotion row col (row + dir) next_col (b.squares row col).color moves2
        else moves2)
      (if is_valid_square (row + dir) col ∧ (b.squares (row + dir) col).type = PieceType.None then
        (if row = srow ∧ is_valid_square (row + 2 * dir) col ∧
            (b.squares (row + 2 * dir) col).type = PieceType.None then
          Movegen.pawn_move_promotion row col (row + dir) col (b.squares row col).color moves ++
            [{ from_row := row, from_col := col, to_row := row + 2 * dir, to_col := col }]
        else Movegen.pawn_move_promotion row col (row + dir) col (b.squares row col).color moves)
      else moves)
      [col - 1, col + 1] ∨
      (m.from_row = row ∧ m.from_col = col ∧ m.to_row ≠ row ∧
        (0 ≤ m.to_row ∧ m.to_row < 8) ∧ (0 ≤ m.to_col ∧ m.to_col < 8)) := by
    split at h
    case isFalse => exact Or.inl h
    case isTrue hepc =>
      rcases mem_foldl_or
        (fun capture_col m3 =>
          m3 = { from_row := row, from_col := col, to_row := row + dir, to_col := capture_col } ∧
            capture_col = b.en_passant_col)
        [col - 1, col + 1]
        (fun acc x _ m3 h3 => by
          split at h3
          case isTrue hcnd =>
            rcases List.mem_append.mp h3 with h4 | h4
            · exact Or.inl h4
            · exact Or.inr ⟨List.mem_singleton.mp h4, hcnd.1⟩
          case isFalse => exact Or.inl h3)
        _ m h with h2 | ⟨cc, _, heq, hcc⟩
      · exact Or.inl h2
      · subst heq
        have h5 : b.en_passant_col ≠ -1 := hepc.1
        have h6 : row = epr := hepc.2
        refine Or.inr ⟨rfl, rfl, ?_, ?_, ?_⟩ <;>
          rcases hdir with hh | hh <;> rcases hepr with hr | hr <;> simp only <;> omega
  rcases hcap with h | hdone
  swap
  · exact Or.inr hdone
  -- peel the diagonal-capture stage
  rcases mem_foldl_or
    (fun next_col m3 =>
      (m3.from_row = row ∧ m3.from_col = col ∧ m3.to_row = row + dir ∧ m3.to_col = next_col) ∧
        is_valid_square (row + dir) next_col = true)
    [col - 1, col + 1]
    (fun acc x _ m3 h3 => by
      split at h3
      case isTrue hcnd =>
        rcases mem_pawn_move_promotion h3 with h4 | ⟨e1, e2, e3, e4⟩
        · exact Or.inl h4
        · exact Or.inr ⟨⟨e1, e2, e3, e4⟩, hcnd.1⟩
      case isFalse => exact Or.inl h3)
    _ m h with h2 | ⟨cc, _, ⟨e1, e2, e3, e4⟩, hv⟩
  swap
  · simp only [is_valid_square, decide_eq_true_eq] at hv
    refine Or.inr ⟨e1, e2, ?_, ?_, ?_⟩ <;> rcases hdir with hh | hh <;> omega
  -- the forward stage
  split at h2
  case isFalse => exact Or.inl h2
  case isTrue hfw =>
    have hv1 : is_valid_square (row + dir) col = true := hfw.1
    simp only [is_valid_square, decide_eq_true_eq] at hv1
    split at h2
    case isTrue htwo =>
      have hv2 : is_valid_square (row + 2 * dir) col = true := htwo.2.1
      simp only [is_valid_square, decide_eq_true_eq] at hv2
      rcases List.mem_append.mp h2 with h3 | h3
      · rcases mem_pawn_move_promotion h3 with h4 | ⟨e1, e2, e3, e4⟩
        · exact Or.inl h4
        · refine Or.inr ⟨e1, e2, ?_, ?_, ?_⟩ <;> rcases hdir with hh | hh <;> omega
      · rw [List.mem_singleton.mp h3]
        refine Or.inr ⟨rfl, rfl, ?_, ?_, ?_⟩ <;> rcases hdir with hh | hh <;> simp only <;> omega
    case isFalse =>
      rcases mem_pawn_move_promotion h2 with h4 | ⟨e1, e2, e3, e4⟩
      · exact Or.inl h4
      · refine Or.inr ⟨e1, e2, ?_, ?_, ?_⟩ <;> rcases hdir with hh | hh <;> omega

/-- The shape of each castling branch: a guard, two test-move checks,
one emitted move. -/
theorem mem_castle_branch {guard c1 c2 : Prop} [Decidable guard] [Decidable c1] [Decidable c2]
    {emitmv : move} {acc : List move} {m : move}
    (h : m ∈ (if guard then (if c1 then (if c2 then acc ++ [emitmv] else acc) else acc) else acc)) :
    m ∈ acc ∨ (m = emitmv ∧ guard) := by
  split at h
  case isTrue hg =>
    split at h
    · split at h
      · rcases List.mem_append.mp h with h2 | h2
        · exact Or.inl h2
        · simp only [List.mem_singleton] at h2
          exact Or.inr ⟨h2, hg⟩
      · exact Or.inl h
    · exact Or.inl h
  case isFalse => exact Or.inl h

theorem mem_generate_castling {Z : ZTables} {b : Board} {row col : Int}
    {moves : List move} {m : move}
    (h : m ∈ Movegen.generate_castling_moves Z b row col moves) :
    m ∈ moves ∨
      (m.from_row = row ∧ m.from_col = col ∧ col = 4 ∧ m.to_row = row ∧
        ((m.to_col = 6 ∧ (b.squares row 5).type = PieceType.None ∧
            (b.squares row 7).type = PieceType.Rook ∧
            (b.squares row 7).color = (b.squares row col).color) ∨
          (m.to_col = 2 ∧ (b.squares row 3).type = PieceType.None ∧
            (b.squares row 0).type = PieceType.Rook ∧
            (b.squares row 0).color = (b.squares row col).color))) := by
  unfold Movegen.generate_castling_moves at h
  dsimp only at h
  set bk : Int := if (b.squares row col).color = Color.White then 0 else 7 with hbk
  set ck : Bool := if (b.squares row col).color = Color.White then b.white_can_castle_kingside
    else b.black_can_castle_kingside with hck
  set cq : Bool := if (b.squares row col).color = Color.White then b.white_can_castle_queenside
    else b.black_can_castle_queenside with hcq
  clear_value bk ck cq
  by_cases hA : (b.squares row col).type ≠ PieceType.King
  · rw [if_pos hA] at h
    exact Or.inl h
  · rw [if_neg hA] at h
    by_cases hB : ¬ (row = bk ∧ col = 4)
    · rw [if_pos hB] at h
      exact Or.inl h
    · rw [if_neg hB] at h
      rw [not_not] at hB
      obtain ⟨hrow, hcol⟩ := hB
      subst hrow
      subst hcol
      rcases mem_castle_branch h with h1 | ⟨hm, hq⟩
      · rcases mem_castle_branch h1 with h2 | ⟨hm, hg⟩
        · exact Or.inl h2
        · subst hm
          exact Or.inr ⟨rfl, rfl, rfl, rfl, Or.inl ⟨rfl, hg.2.1, hg.2.2.2.1, hg.2.2.2.2⟩⟩
      · subst hm
        exact Or.inr ⟨rfl, rfl, rfl, rfl, Or.inr ⟨rfl, hq.2.1, hq.2.2.2.2.1, hq.2.2.2.2.2⟩⟩

theorem mem_generate_king {Z : ZTables} {b : Board} {row col : Int}
    {moves : List move} {m : move}
    (h : m ∈ Movegen.generate_king_moves Z b row col moves) :
    m ∈ moves ∨
      (∃ o ∈ king_offsets,
        m = { from_row := row, from_col := col, to_row := row + o.1, to_col := col + o.2 } ∧
          is_valid_square (row + o.1) (col + o.2) = true) ∨
      (m.from_row = row ∧ m.from_col = col ∧ col = 4 ∧ m.to_row = row ∧
        ((m.to_col = 6 ∧ (b.squares row 5).type = PieceType.None ∧
            (b.squares row 7).type = PieceType.Rook ∧
            (b.squares row 7).color = (b.squares row col).color) ∨
          (m.to_col = 2 ∧ (b.squares row 3).type = PieceType.None ∧
            (b.squares row 0).type = PieceType.Rook ∧
            (b.squares row 0).color = (b.squares row col).color))) := by
  unfold Movegen.generate_king_moves at h
  dsimp only at h
  rcases mem_generate_castling h with h1 | hc
  · rcases mem_offsets_fold h1 with h2 | ho
    · exact Or.inl h2
    · exact Or.inr (Or.inl ho)
  · exact Or.inr (Or.inr hc)

/-- Everything `MoveFacts` records holds of any move produced by
`generate_legal_moves` on a board with a sane en-passant column. -/
theorem legal_move_facts {Z : ZTables} {b : Board} {m : move}
    (hep : -1 ≤ b.en_passant_col ∧ b.en_passant_col < 8)
    (hm : m ∈ Movegen.generate_legal_moves Z b) : MoveFacts b m := by
  have kn0 : ∀ o ∈ knight_offsets, ¬ (o.1 = 0 ∧ o.2 = 0) := by decide
  have kg0 : ∀ o ∈ king_offsets, ¬ (o.1 = 0 ∧ o.2 = 0) := by decide
  have kg1 : ∀ o ∈ king_offsets, o.2 = 1 ∨ o.2 = 0 ∨ o.2 = -1 := by decide
  have dd0 : ∀ d ∈ diag_dirs, ¬ (d.1 = 0 ∧ d.2 = 0) := by decide
  have sd0 : ∀ d ∈ straight_dirs, ¬ (d.1 = 0 ∧ d.2 = 0) := by decide
  have qd0 : ∀ d ∈ straight_dirs ++ diag_dirs, ¬ (d.1 = 0 ∧ d.2 = 0) := by decide
  unfold Movegen.generate_legal_moves at hm
  dsimp only at hm
  have hp : m ∈ (List.range 8).foldl
      (fun (acc : List move) (r : Nat) => (List.range 8).foldl
        (fun (acc : List move) (c : Nat) =>
          if (b.squares (r : Int) (c : Int)).color = b.side_to_move then
            match (b.squares (r : Int) (c : Int)).type with
            | PieceType.Pawn => Movegen.generate_pawn_moves b (r : Int) (c : Int) acc
            | PieceType.Knight => Movegen.generate_knight_moves b (r : Int) (c : Int) acc
            | PieceType.Bishop => Movegen.generate_bishop_moves b (r : Int) (c : Int) acc
            | PieceType.Rook => Movegen.generate_rook_moves b (r : Int) (c : Int) acc
            | PieceType.Queen => Movegen.generate_queen_moves b (r : Int) (c : Int) acc
            | PieceType.King => Movegen.generate_king_moves Z b (r : Int) (c : Int) acc
            | PieceType.None => acc
          else acc)
        acc)
      [] := (List.mem_filter.mp hm).1
  -- one cell of the scan
  have hcell : ∀ (r c : Nat), r < 8 → c < 8 → ∀ (acc : List move) (m3 : move),
      m3 ∈ (if (b.squares (r : Int) (c : Int)).color = b.side_to_move then
          match (b.squares (r : Int) (c : Int)).type with
          | PieceType.Pawn => Movegen.generate_pawn_moves b (r : Int) (c : Int) acc
          | PieceType.Knight => Movegen.generate_knight_moves b (r : Int) (c : Int) acc
          | PieceType.Bishop => Movegen.generate_bishop_moves b (r : Int) (c : Int) acc
          | PieceType.Rook => Movegen.generate_rook_moves b (r : Int) (c : Int) acc
          | PieceType.Queen => Movegen.generate_queen_moves b (r : Int) (c : Int) acc
          | PieceType.King => Movegen.generate_king_moves Z b (r : Int) (c : Int) acc
          | PieceType.None => acc
        else acc) →
      m3 ∈ acc ∨ ((b.squares (r : Int) (c : Int)).color = b.side_to_move ∧
        (b.squares (r : Int) (c : Int)).type ≠ PieceType.None ∧ EmitFacts b (r : Int) (c : Int) m3) := by
    intro r c hr8 hc8 acc m3 h3
    split at h3
    case isFalse => exact Or.inl h3
    case isTrue hcolor =>
      split at h3
      case h_7 htype =>
        exact Or.inl h3
      case h_1 htype =>
        -- Pawn
        rcases mem_generate_pawn hep h3 with h4 | ⟨e1, e2, e3, e4, e5⟩
        · exact Or.inl h4
        · refine Or.inr ⟨hcolor, by rw [htype]; simp, e1, e2, e4, e5, ?_, ?_, ?_⟩
          · rintro ⟨hh, -⟩; exact e3 hh
          · intro _; exact e3
          · intro hk; rw [htype] at hk; simp at hk
      case h_2 htype =>
        -- Knight
        unfold Movegen.generate_knight_moves at h3
        rcases mem_offsets_fold h3 with h4 | ⟨o, ho, heq, hv⟩
        · exact Or.inl h4
        · subst heq
          simp only [is_valid_square, decide_eq_true_eq] at hv
          refine Or.inr ⟨hcolor, by rw [htype]; simp, rfl, rfl, ⟨hv.1, hv.2.1⟩, ⟨hv.2.2.1, hv.2.2.2⟩, ?_, ?_, ?_⟩
          · rintro ⟨h5, h6⟩
            simp only at h5 h6
            exact kn0 o ho ⟨by omega, by omega⟩
          · intro hk; rw [htype] at hk; simp at hk
          · intro hk; rw [htype] at hk; simp at hk
      case h_3 htype =>
        -- Bishop
        unfold Movegen.generate_bishop_moves at h3
        rcases mem_generate_sliding h3 with h4 | ⟨d, hd, k, hk, heq, hv⟩
        · exact Or.inl h4
        · subst heq
          simp only [is_valid_square, decide_eq_true_eq] at hv
          refine Or.inr ⟨hcolor, by rw [htype]; simp, rfl, rfl, ⟨hv.1, hv.2.1⟩, ⟨hv.2.2.1, hv.2.2.2⟩, ?_, ?_, ?_⟩
          · rintro ⟨h5, h6⟩
            simp only at h5 h6
            have hd1 : d.1 * k = 0 := by omega
            have hd2 : d.2 * k = 0 := by omega
            rcases Int.mul_eq_zero.mp hd1 with h7 | h7
            · rcases Int.mul_eq_zero.mp hd2 with h8 | h8
              · exact dd0 d hd ⟨h7, h8⟩
              · omega
            · omega
          · intro hk2; rw [htype] at hk2; simp at hk2
          · intro hk2; rw [htype] at hk2; simp at hk2
      case h_4 htype =>
        -- Rook
        unfold Movegen.generate_rook_moves at h3
        rcases mem_generate_sliding h3 with h4 | ⟨d, hd, k, hk, heq, hv⟩
        · exact Or.inl h4
        · subst heq
          simp only [is_valid_square, decide_eq_true_eq] at hv
          refine Or.inr ⟨hcolor, by rw [htype]; simp, rfl, rfl, ⟨hv.1, hv.2.1⟩, ⟨hv.2.2.1, hv.2.2.2⟩, ?_, ?_, ?_⟩
          · rintro ⟨h5, h6⟩
            simp only at h5 h6
            have hd1 : d.1 * k = 0 := by omega
            have hd2 : d.2 * k = 0 := by omega
            rcases Int.mul_eq_zero.mp hd1 with h7 | h7
            · rcases Int.mul_eq_zero.mp hd2 with h8 | h8
              · exact sd0 d hd ⟨h7, h8⟩
              · omega
            · omega
          · intro hk2; rw [htype] at hk2; simp at hk2
          · intro hk2; rw [htype] at hk2; simp at hk2
      case h_5 htype =>
        -- Queen
        unfold Movegen.generate_queen_moves at h3
        rcases mem_generate_sliding h3 with h4 | ⟨d, hd, k, hk, heq, hv⟩
        · exact Or.inl h4
        · subst heq
          simp only [is_valid_square, decide_eq_true_eq] at hv
          refine Or.inr ⟨hcolor, by rw [htype]; simp, rfl, rfl, ⟨hv.1, hv.2.1⟩, ⟨hv.2.2.1, hv.2.2.2⟩, ?_, ?_, ?_⟩
          · rintro ⟨h5, h6⟩
            simp only at h5 h6
            have hd1 : d.1 * k = 0 := by omega
            have hd2 : d.2 * k = 0 := by omega
            rcases Int.mul_eq_zero.mp hd1 with h7 | h7
            · rcases Int.mul_eq_zero.mp hd2 with h8 | h8
              · exact qd0 d hd ⟨h7, h8⟩
              · omega
            · omega
          · intro hk2; rw [htype] at hk2; simp at hk2
          · intro hk2; rw [htype] at hk2; simp at hk2
      case h_6 htype =>
        -- King
        rcases mem_generate_king h3 with h4 | ⟨o, ho, heq, hv⟩ | ⟨e1, e2, e3, e4, hcc⟩
        · exact Or.inl h4
        · subst heq
          simp only [is_valid_square, decide_eq_true_eq] at hv
          refine Or.inr ⟨hcolor, by rw [htype]; simp, rfl, rfl, ⟨hv.1, hv.2.1⟩, ⟨hv.2.2.1, hv.2.2.2⟩, ?_, ?_, ?_⟩
          · rintro ⟨h5, h6⟩
            simp only at h5 h6
            exact kg0 o ho ⟨by omega, by omega⟩
          · intro hk; rw [htype] at hk; simp at hk
          · intro _ habs
            simp only at habs
            rcases kg1 o ho with h7 | h7 | h7 <;> rw [h7] at habs <;> omega
        · refine Or.inr ⟨hcolor, by rw [htype]; simp, e1, e2, ?_, ?_, ?_, ?_, ?_⟩
          · rw [e4]; omega
          · rcases hcc with ⟨h6, -⟩ | ⟨h6, -⟩ <;> rw [h6] <;> omega
          · rintro ⟨-, h6⟩
            rcases hcc with ⟨h7, -⟩ | ⟨h7, -⟩ <;> rw [h7] at h6 <;> omega
          · intro hpp; rw [htype] at hpp; simp at hpp
          · intro _ _
            exact ⟨e4, e3, hcc⟩
  have houter := mem_foldl_or
    (fun (r : Nat) m3 => ∃ c ∈ List.range 8,
      (b.squares (r : Int) (c : Int)).color = b.side_to_move ∧
      (b.squares (r : Int) (c : Int)).type ≠ PieceType.None ∧ EmitFacts b (r : Int) (c : Int) m3)
    (List.range 8)
    (fun acc r hrmem m3 h3 => mem_foldl_or
      (fun (c : Nat) m4 =>
        (b.squares (r : Int) (c : Int)).color = b.side_to_move ∧
        (b.squares (r : Int) (c : Int)).type ≠ PieceType.None ∧ EmitFacts b (r : Int) (c : Int) m4)
      (List.range 8)
      (fun acc2 c hcmem m4 h4 =>
        hcell r c (List.mem_range.mp hrmem) (List.mem_range.mp hcmem) acc2 m4 h4)
      acc m3 h3)
    [] m hp
  rcases houter with h0 | ⟨r, hr, c, hc, hcolor, htne, ef⟩
  · simp at h0
  · rw [List.mem_range] at hr hc
    obtain ⟨e1, e2, htr, htc, hnd, hpw, hkg⟩ := ef
    rw [← e1, ← e2] at hcolor htne hnd hpw hkg
    exact {
      from_row_range := by rw [e1]; omega
      from_col_range := by rw [e2]; omega
      to_row_range := htr
      to_col_range := htc
      ne_dest := hnd
      color_eq := hcolor
      type_ne := htne
      pawn_to_row := hpw
      king_two := hkg }

/-! ## The make/unmake roundtrip -/

theorem zc_nonneg {c : Color} (h : c ≠ Color.None) : ¬ zc c < 0 := by
  cases c
  · exact absurd rfl h
  · simp [zc]
  · simp [zc]

theorem make_move_eq (Z : ZTables) (b : Board) (m : move)
    (h : ¬ zc (b.squares m.from_row m.from_col).color < 0) :
    make_move Z b m = (mkBoard Z b m, mkUndo b m) := by
  unfold make_move
  rw [if_neg h]

theorem WF_empty_eq {b : Board} (hwf : WF b) {r c : Int} (hr0 : 0 ≤ r) (hr8 : r < 8)
    (hc0 : 0 ≤ c) (hc8 : c < 8) (h : (b.squares r c).type = PieceType.None) :
    b.squares r c = ({} : Piece) := by
  obtain ⟨rn, rfl⟩ : ∃ n : Nat, r = (n : Int) := ⟨r.toNat, (Int.toNat_of_nonneg hr0).symm⟩
  obtain ⟨cn, rfl⟩ : ∃ n : Nat, c = (n : Int) := ⟨c.toNat, (Int.toNat_of_nonneg hc0).symm⟩
  have hiff := hwf.2.2 rn (by omega) cn (by omega)
  exact Piece.ext h (hiff.mpr h)

theorem pc_ok_of_facts {b : Board} {m : move} (hwf : WF b) (F : MoveFacts b m) :
    ¬ zc (b.squares m.from_row m.from_col).color < 0 := by
  rw [F.color_eq]
  exact zc_nonneg hwf.1

/-- C1 with the well-formedness invariant as explicit precondition: a
legal move made then unmade restores the board, every field included. -/
theorem roundtrip_of_WF {Z : ZTables} {b : Board} {m : move} (hwf : WF b)
    (hm : m ∈ Movegen.generate_legal_moves Z b) :
    unmake_move (make_move Z b m).1 m (make_move Z b m).2 = b := by
  have F := legal_move_facts hwf.2.1 hm
  have hpc := pc_ok_of_facts hwf F
  rw [make_move_eq Z b m hpc]
  unfold unmake_move
  dsimp only
  have hpiece_read : (mkBoard Z b m).squares m.to_row m.to_col = mkPiece2 b m := by
    show mkSquares b m m.to_row m.to_col = mkPiece2 b m
    unfold mkSquares
    rw [setSquare_self]
  have hpiece2 :
      ({ (mkBoard Z b m).squares m.to_row m.to_col with
        type := (mkUndo b m).moved_piece_type } : Piece) = b.squares m.from_row m.from_col := by
    rw [hpiece_read]
    unfold mkPiece2 mkUndo
    dsimp only
  apply Board.ext
  case side_to_move => rfl
  case white_can_castle_kingside => rfl
  case white_can_castle_queenside => rfl
  case black_can_castle_kingside => rfl
  case black_can_castle_queenside => rfl
  case en_passant_row => rfl
  case en_passant_col => rfl
  case zobrist_hash => rfl
  case squares =>
    dsimp only
    by_cases hcast : castlingCond b m
    · -- castling
      have hnep : ¬ wasEpCond b m := by
        intro hw
        have h2 := hcast.1
        rw [hw.1] at h2
        cases h2
      obtain ⟨htr, hfc, hdisj⟩ := F.king_two hcast.1 hcast.2
      have hcnd : (mkUndo b m).moved_piece_type = PieceType.King ∧
          (m.to_col - m.from_col).natAbs = 2 := ⟨by unfold mkUndo; exact hcast.1, hcast.2⟩
      rw [if_pos hcnd]
      have hepbool : ¬ (mkUndo b m).was_en_passant = true := by
        unfold mkUndo
        simp [hnep]
      rw [if_pos hepbool]
      rcases hdisj with ⟨htc, h5, h7t, h7c⟩ | ⟨htc, h3, h0t, h0c⟩
      · -- kingside
        have hdelta : 0 < m.to_col - m.from_col := by omega
        rw [if_pos hdelta]
        have hM : (mkBoard Z b m).squares
            = setSquare
                (setSquare
                  (setSquare (setSquare b.squares m.from_row m.from_col {}) m.from_row 7 {})
                  m.from_row 5 (b.squares m.from_row 7))
                m.to_row m.to_col (mkPiece2 b m) := by
          show mkSquares b m = _
          unfold mkSquares mkSq1 mkSq0
          dsimp only
          rw [if_neg hnep, if_pos hcast, if_pos hdelta]
          rw [setSquare_ne _ _ (by rintro ⟨-, h⟩; omega)]
        have hrookread : (mkBoard Z b m).squares m.from_row 5 = b.squares m.from_row 7 := by
          rw [hM]
          rw [setSquare_ne _ _ (by rintro ⟨-, h⟩; omega), setSquare_self]
        funext x y
        by_cases hx1 : x = m.to_row ∧ y = m.to_col
        · obtain ⟨rfl, rfl⟩ := hx1
          rw [setSquare_self]
          unfold mkUndo capturedPiece
          dsimp only
          rw [if_neg hnep]
        · rw [setSquare_ne _ _ hx1]
          by_cases hx2 : x = m.from_row ∧ y = m.from_col
          · obtain ⟨rfl, rfl⟩ := hx2
            rw [setSquare_self, hpiece2]
          · rw [setSquare_ne _ _ hx2]
            by_cases hx3 : x = m.from_row ∧ y = 5
            · obtain ⟨rfl, rfl⟩ := hx3
              rw [setSquare_self]
              exact (WF_empty_eq hwf F.from_row_range.1 F.from_row_range.2
                (by omega) (by omega) h5).symm
            · rw [setSquare_ne _ _ hx3]
              by_cases hx4 : x = m.from_row ∧ y = 7
              · obtain ⟨rfl, rfl⟩ := hx4
                rw [setSquare_self, hrookread]
              · rw [setSquare_ne _ _ hx4, hM,
                  setSquare_ne _ _ hx1, setSquare_ne _ _ hx3, setSquare_ne _ _ hx4,
                  setSquare_ne _ _ hx2]
      · -- queenside
        have hdelta : ¬ 0 < m.to_col - m.from_col := by omega
        rw [if_neg hdelta]
        have hM : (mkBoard Z b m).squares
            = setSquare
                (setSquare
                  (setSquare (setSquare b.squares m.from_row m.from_col {}) m.from_row 0 {})
                  m.from_row 3 (b.squares m.from_row 0))
                m.to_row m.to_col (mkPiece2 b m) := by
          show mkSquares b m = _
          unfold mkSquares mkSq1 mkSq0
          dsimp only
          rw [if_neg hnep, if_pos hcast, if_neg hdelta]
          rw [setSquare_ne _ _ (by rintro ⟨-, h⟩; omega)]
        have hrookread : (mkBoard Z b m).squares m.from_row 3 = b.squares m.from_row 0 := by
          rw [hM]
          rw [setSquare_ne _ _ (by rintro ⟨-, h⟩; omega), setSquare_self]
        funext x y
        by_cases hx1 : x = m.to_row ∧ y = m.to_col
        · obtain ⟨rfl, rfl⟩ := hx1
          rw [setSquare_self]
          unfold mkUndo capturedPiece
          dsimp only
          rw [if_neg hnep]
        · rw [setSquare_ne _ _ hx1]
          by_cases hx2 : x = m.from_row ∧ y = m.from_col
          · obtain ⟨rfl, rfl⟩ := hx2
            rw [setSquare_self, hpiece2]
          · rw [setSquare_ne _ _ hx2]
            by_cases hx3 : x = m.from_row ∧ y = 3
            · obtain ⟨rfl, rfl⟩ := hx3
              rw [setSquare_self]
              exact (WF_empty_eq hwf F.from_row_range.1 F.from_row_range.2
                (by omega) (by omega) h3).symm
            · rw [setSquare_ne _ _ hx3]
              by_cases hx4 : x = m.from_row ∧ y = 0
              · obtain ⟨rfl, rfl⟩ := hx4
                rw [setSquare_self, hrookread]
              · rw [setSquare_ne _ _ hx4, hM,
                  setSquare_ne _ _ hx1, setSquare_ne _ _ hx3, setSquare_ne _ _ hx4,
                  setSquare_ne _ _ hx2]
    · -- no castling
      have hcnd : ¬ ((mkUndo b m).moved_piece_type = PieceType.King ∧
          (m.to_col - m.from_col).natAbs = 2) := by
        intro hc
        apply hcast
        refine ⟨?_, hc.2⟩
        have := hc.1
        unfold mkUndo at this
        exact this
      rw [if_neg hcnd]
      by_cases hep : wasEpCond b m
      · -- en passant capture
        have hepbool : ¬ ¬ (mkUndo b m).was_en_passant = true := by
          unfold mkUndo
          simp [hep]
        rw [if_neg hepbool]
        have htrne : m.to_row ≠ m.from_row := F.pawn_to_row hep.1
        have hM : (mkBoard Z b m).squares
            = setSquare
                (setSquare (setSquare b.squares m.from_row m.to_col {}) m.from_row m.from_col {})
                m.to_row m.to_col (mkPiece2 b m) := by
          show mkSquares b m = _
          unfold mkSquares mkSq1 mkSq0
          dsimp only
          rw [if_pos hep, if_neg hcast]
        funext x y
        by_cases hx1 : x = m.from_row ∧ y = m.to_col
        · obtain ⟨rfl, rfl⟩ := hx1
          rw [setSquare_self]
          unfold mkUndo capturedPiece
          dsimp only
          rw [if_pos hep]
        · rw [setSquare_ne _ _ hx1]
          by_cases hx2 : x = m.to_row ∧ y = m.to_col
          · obtain ⟨rfl, rfl⟩ := hx2
            rw [setSquare_self]
            exact (WF_empty_eq hwf F.to_row_range.1 F.to_row_range.2
              F.to_col_range.1 F.to_col_range.2 hep.2.2.1).symm
          · rw [setSquare_ne _ _ hx2]
            by_cases hx3 : x = m.from_row ∧ y = m.from_col
            · obtain ⟨rfl, rfl⟩ := hx3
              rw [setSquare_self, hpiece2]
            · rw [setSquare_ne _ _ hx3, hM,
                setSquare_ne _ _ hx2, setSquare_ne _ _ hx3, setSquare_ne _ _ hx1]
      · -- plain move or normal capture
        have hepbool : ¬ (mkUndo b m).was_en_passant = true := by
          unfold mkUndo
          simp [hep]
        rw [if_pos hepbool]
        have hM : (mkBoard Z b m).squares
            = setSquare (setSquare b.squares m.from_row m.from_col {})
                m.to_row m.to_col (mkPiece2 b m) := by
          show mkSquares b m = _
          unfold mkSquares mkSq1 mkSq0
          dsimp only
          rw [if_neg hep, if_neg hcast]
        funext x y
        by_cases hx1 : x = m.to_row ∧ y = m.to_col
        · obtain ⟨rfl, rfl⟩ := hx1
          rw [setSquare_self]
          unfold mkUndo capturedPiece
          dsimp only
          rw [if_neg hep]
        · rw [setSquare_ne _ _ hx1]
          by_cases hx2 : x = m.from_row ∧ y = m.from_col
          · obtain ⟨rfl, rfl⟩ := hx2
            rw [setSquare_self, hpiece2]
          · rw [setSquare_ne _ _ hx2, hM,
              setSquare_ne _ _ hx1, setSquare_ne _ _ hx2]

theorem finalType_ne_none {b : Board} {m : move}
    (h : (b.squares m.from_row m.from_col).type ≠ PieceType.None) :
    finalType b m ≠ PieceType.None := by
  unfold finalType
  split
  · cases m.promotion <;> first | (intro hx; cases hx) | exact h
  · exact h

theorem GoodPiece_setSquare_point {s : Int → Int → Piece} {a d : Int} {v : Piece} {r c : Int}
    (hv : GoodPiece v) (hs : GoodPiece (s r c)) : GoodPiece (setSquare s a d v r c) := by
  unfold GoodPiece setSquare at *
  by_cases h : r = a ∧ c = d
  · simp only [if_pos h]
    exact hv
  · simp only [if_neg h]
    exact hs

theorem WF_squares_int {b : Board} (hwf : WF b) {r c : Int} (hr0 : 0 ≤ r) (hr8 : r < 8)
    (hc0 : 0 ≤ c) (hc8 : c < 8) : GoodPiece (b.squares r c) := by
  obtain ⟨rn, rfl⟩ : ∃ n : Nat, r = (n : Int) := ⟨r.toNat, (Int.toNat_of_nonneg hr0).symm⟩
  obtain ⟨cn, rfl⟩ : ∃ n : Nat, c = (n : Int) := ⟨c.toNat, (Int.toNat_of_nonneg hc0).symm⟩
  exact hwf.2.2 rn (by omega) cn (by omega)

/-- `make_move` preserves the board invariant along legal moves. -/
theorem make_WF {Z : ZTables} {b : Board} {m : move} (hwf : WF b)
    (hm : m ∈ Movegen.generate_legal_moves Z b) : WF (make_move Z b m).1 := by
  have F := legal_move_facts hwf.2.1 hm
  obtain ⟨hfc0, hfc8⟩ := F.from_col_range
  rw [make_move_eq Z b m (pc_ok_of_facts hwf F)]
  have hGPe : GoodPiece ({} : Piece) := by
    constructor <;> intro <;> rfl
  have hGP2 : GoodPiece (mkPiece2 b m) := by
    unfold GoodPiece mkPiece2
    dsimp only
    constructor
    · intro hc
      rw [F.color_eq] at hc
      exact absurd hc hwf.1
    · intro ht
      exact absurd ht (finalType_ne_none F.type_ne)
  have hsq1 : ∀ r c : Int, GoodPiece (b.squares r c) → GoodPiece (mkSq1 b m r c) := by
    intro r c hb
    unfold mkSq1 mkSq0
    by_cases hep : wasEpCond b m
    · rw [if_pos hep]
      exact GoodPiece_setSquare_point hGPe (GoodPiece_setSquare_point hGPe hb)
    · rw [if_neg hep]
      exact GoodPiece_setSquare_point hGPe hb
  refine ⟨?_, ?_, ?_⟩
  · show (if b.side_to_move = Color.White then Color.Black else Color.White) ≠ Color.None
    split <;> intro h <;> cases h
  · show -1 ≤ mkEpCol b m ∧ mkEpCol b m < 8
    unfold mkEpCol
    split
    · exact ⟨by omega, by omega⟩
    · exact ⟨by norm_num, by norm_num⟩
  · intro r hr c hc
    show GoodPiece (mkSquares b m (r : Int) (c : Int))
    have hb : GoodPiece (b.squares (r : Int) (c : Int)) := hwf.2.2 r hr c hc
    unfold mkSquares
    apply GoodPiece_setSquare_point hGP2
    by_cases hcast : castlingCond b m
    · rw [if_pos hcast]
      have hrook7 : GoodPiece (b.squares m.from_row 7) :=
        WF_squares_int hwf F.from_row_range.1 F.from_row_range.2 (by norm_num) (by norm_num)
      have hrook0 : GoodPiece (b.squares m.from_row 0) :=
        WF_squares_int hwf F.from_row_range.1 F.from_row_range.2 (by norm_num) (by norm_num)
      split
      · exact GoodPiece_setSquare_point (hsq1 _ _ hrook7)
          (GoodPiece_setSquare_point hGPe (hsq1 _ _ hb))
      · exact GoodPiece_setSquare_point (hsq1 _ _ hrook0)
          (GoodPiece_setSquare_point hGPe (hsq1 _ _ hb))
    · rw [if_neg hcast]
      exact hsq1 _ _ hb

/-- Every board the program reaches satisfies the invariant. -/
theorem reachable_WF {Z : ZTables} {b : Board} (h : Reachable Z b) : WF b := by
  induction h with
  | start => decide
  | step b m hb hm ih => exact make_WF ih hm

/-- C1: on every reachable board, making any generated legal move and then
unmaking it restores the original board exactly: every square, the side to
move, the four castling rights, the en-passant target and the zobrist
hash, for every move kind (quiet moves, captures, en passant, castling and
promotions). -/
theorem make_unmake_roundtrip {Z : ZTables} {b : Board} {m : move} (hr : Reachable Z b)
    (hm : m ∈ Movegen.generate_legal_moves Z b) :
    unmake_move (make_move Z b m).1 m (make_move Z b m).2 = b :=
  roundtrip_of_WF (reachable_WF hr) hm

set_option maxRecDepth 100000 in
/-- C1 witness: the starting position is reachable, e2e4 is generated
there, and make/unmake of it restores the starting position. -/
theorem make_unmake_roundtrip_witness :
    mv_e2e4 ∈ Movegen.generate_legal_moves Ztest make_starting_position ∧
    unmake_move (make_move Ztest make_starting_position mv_e2e4).1 mv_e2e4
      (make_move Ztest make_starting_position mv_e2e4).2 = make_starting_position :=
  ⟨by decide, make_unmake_roundtrip Reachable.start (by decide)⟩

/-! ## Correctness of the incremental zobrist hash -/

theorem zPieceContrib_none (Z : ZTables) (p : Piece) (r c : Int)
    (ht : p.type = PieceType.None) : zPieceContrib Z p r c = 0 := by
  unfold zPieceContrib
  rw [if_neg]
  rintro ⟨h1, -⟩
  exact h1 ht

theorem zPieceContrib_eq (Z : ZTables) (p : Piece) (r c : Int)
    (ht : p.type ≠ PieceType.None) (hc : p.color ≠ Color.None) :
    zPieceContrib Z p r c = Z.piece (zc p.color) (pieceTypeIndex p.type) (sq_index r c) := by
  unfold zPieceContrib
  rw [if_pos ⟨ht, hc⟩]

theorem WF_color_ne {b : Board} (hwf : WF b) {r c : Int} (hr0 : 0 ≤ r) (hr8 : r < 8)
    (hc0 : 0 ≤ c) (hc8 : c < 8) (ht : (b.squares r c).type ≠ PieceType.None) :
    (b.squares r c).color ≠ Color.None :=
  fun hcn => ht ((WF_squares_int hwf hr0 hr8 hc0 hc8).mp hcn)

set_option maxHeartbeats 1000000 in
/-- The hash `make_move` maintains incrementally equals `compute_zobrist`
of the board it produces, whenever the input hash was correct. -/
theorem mkBoard_hash_correct {Z : ZTables} {b : Board} {m : move} (hwf : WF b)
    (hh : b.zobrist_hash = compute_zobrist Z b) (F : MoveFacts b m) :
    (mkBoard Z b m).zobrist_hash = compute_zobrist Z (mkBoard Z b m) := by
  obtain ⟨hfr0, hfr8⟩ := F.from_row_range
  obtain ⟨hfc0, hfc8⟩ := F.from_col_range
  obtain ⟨htr0, htr8⟩ := F.to_row_range
  obtain ⟨htc0, htc8⟩ := F.to_col_range
  obtain ⟨hecm1, hec8⟩ := hwf.2.1
  have hcolor_from : (b.squares m.from_row m.from_col).color ≠ Color.None := by
    rw [F.color_eq]
    exact hwf.1
  have hside_new :
      (if (if b.side_to_move = Color.White then Color.Black else Color.White) = Color.Black
        then Z.side else 0)
      = Z.side ^^^ (if b.side_to_move = Color.Black then Z.side else 0) := by
    cases hcb : b.side_to_move
    · exact absurd hcb hwf.1
    · simp
    · simp [Nat.xor_self]
  have hto_in : Z.piece (zc (b.squares m.from_row m.from_col).color)
        (pieceTypeIndex (finalType b m)) (sq_index m.to_row m.to_col)
      = zPieceContrib Z (mkPiece2 b m) m.to_row m.to_col := by
    unfold zPieceContrib mkPiece2
    dsimp only
    rw [if_pos ⟨finalType_ne_none F.type_ne, hcolor_from⟩]
  have hL : (mkBoard Z b m).zobrist_hash
      = mkHash0 Z b m ^^^ Z.castling (castle_index (mkBoard Z b m)) ^^^ Z.side := rfl
  rw [hL, compute_zobrist_eq]
  have hsq : (mkBoard Z b m).squares = mkSquares b m := rfl
  have hsd2 : (mkBoard Z b m).side_to_move
      = (if b.side_to_move = Color.White then Color.Black else Color.White) := rfl
  have hec : (mkBoard Z b m).en_passant_col = mkEpCol b m := rfl
  rw [hsq, hsd2, hec, hside_new]
  have hnewep : (if 0 ≤ mkEpCol b m then Z.enpassant (mkEpCol b m) else 0)
      = (if pawnTwoCond b m then Z.enpassant m.from_col else 0) := by
    unfold mkEpCol
    by_cases hp2 : pawnTwoCond b m
    · rw [if_pos hp2, if_pos hp2, if_pos hfc0]
    · rw [if_neg hp2, if_neg hp2, if_neg (show ¬ (0:Int) ≤ -1 by norm_num)]
  rw [hnewep]
  unfold mkHash0
  dsimp only
  have hepoldX : ∀ X : Nat,
      (if b.en_passant_col ≠ -1 then X ^^^ Z.enpassant b.en_passant_col else X)
      = X ^^^ (if 0 ≤ b.en_passant_col then Z.enpassant b.en_passant_col else 0) := by
    intro X
    by_cases h0 : 0 ≤ b.en_passant_col
    · rw [if_pos (by omega : b.en_passant_col ≠ -1), if_pos h0]
    · rw [if_neg (by omega : ¬ b.en_passant_col ≠ -1), if_neg h0, Nat.xor_zero]
  rw [hepoldX, hh, compute_zobrist_eq]
  have hp2X : ∀ X : Nat,
      (if pawnTwoCond b m then X ^^^ Z.enpassant m.from_col else X)
      = X ^^^ (if pawnTwoCond b m then Z.enpassant m.from_col else 0) := by
    intro X
    by_cases hp2 : pawnTwoCond b m
    · rw [if_pos hp2, if_pos hp2]
    · rw [if_neg hp2, if_neg hp2, Nat.xor_zero]
  rw [hp2X, hto_in,
    ← zPieceContrib_eq Z (b.squares m.from_row m.from_col) m.from_row m.from_col
      F.type_ne hcolor_from]
  have hcapto : ∀ X : Nat,
      (if (b.squares m.to_row m.to_col).type ≠ PieceType.None then
        X ^^^ Z.piece (zc (b.squares m.to_row m.to_col).color)
          (pieceTypeIndex (b.squares m.to_row m.to_col).type) (sq_index m.to_row m.to_col)
      else X)
      = X ^^^ zPieceContrib Z (b.squares m.to_row m.to_col) m.to_row m.to_col := by
    intro X
    by_cases hoc : (b.squares m.to_row m.to_col).type = PieceType.None
    · rw [if_neg (not_not_intro hoc), zPieceContrib_none Z _ m.to_row m.to_col hoc,
        Nat.xor_zero]
    · rw [if_pos hoc,
        zPieceContrib_eq Z _ m.to_row m.to_col hoc (WF_color_ne hwf htr0 htr8 htc0 htc8 hoc)]
  by_cases hcast : castlingCond b m
  · have hnep : ¬ wasEpCond b m := by
      intro hw
      have h2 := hcast.1
      rw [hw.1] at h2
      cases h2
    rw [if_pos hcast, if_neg hnep, hcapto]
    obtain ⟨htr, hfc4, hdisj⟩ := F.king_two hcast.1 hcast.2
    rcases hdisj with ⟨htc6, h5, h7t, h7c⟩ | ⟨htc2, h3, h0t, h0c⟩
    · have hdelta : 0 < m.to_col - m.from_col := by omega
      rw [if_pos hdelta]
      have hrk : mkSq1 b m m.from_row 7 = b.squares m.from_row 7 := by
        unfold mkSq1
        rw [setSquare_ne _ _ (by rintro ⟨-, h⟩; omega)]
        unfold mkSq0
        rw [if_neg hnep]
      rw [hrk]
      have ht7 : (b.squares m.from_row 7).type ≠ PieceType.None := by
        rw [h7t]
        intro hx
        cases hx
      have hc7 : (b.squares m.from_row 7).color ≠ Color.None := by
        rw [h7c]
        exact hcolor_from
      rw [← zPieceContrib_eq Z (b.squares m.from_row 7) m.from_row 7 ht7 hc7,
        ← zPieceContrib_eq Z (b.squares m.from_row 7) m.from_row 5 ht7 hc7]
      have hMS : mkSquares b m
          = setSquare
              (setSquare
                (setSquare (setSquare b.squares m.from_row m.from_col {}) m.from_row 7 {})
                m.from_row 5 (b.squares m.from_row 7))
              m.to_row m.to_col (mkPiece2 b m) := by
        unfold mkSquares mkSq1 mkSq0
        dsimp only
        rw [if_neg hnep, if_pos hcast, if_pos hdelta]
        rw [setSquare_ne _ _ (by rintro ⟨-, h⟩; omega)]
      rw [hMS, pieceHash_setSquare Z _ (mkPiece2 b m) htr0 htr8 htc0 htc8,
        setSquare_ne _ _ (by rintro ⟨-, h⟩; omega),
        setSquare_ne _ _ (by rintro ⟨-, h⟩; omega),
        setSquare_ne _ _ (by rintro ⟨-, h⟩; omega),
        pieceHash_setSquare Z _ (b.squares m.from_row 7) hfr0 hfr8
          (by norm_num) (by norm_num),
        setSquare_ne _ _ (by rintro ⟨-, h⟩; omega),
        setSquare_ne _ _ (by rintro ⟨-, h⟩; omega),
        zPieceContrib_none Z _ m.from_row 5 h5,
        pieceHash_setSquare Z _ ({} : Piece) hfr0 hfr8
          (by norm_num : (0:Int) ≤ 7) (by norm_num : (7:Int) < 8),
        setSquare_ne _ _ (by rintro ⟨-, h⟩; omega),
        pieceHash_setSquare Z _ ({} : Piece) hfr0 hfr8 hfc0 hfc8]
      simp only [zPieceContrib_empty, Nat.xor_assoc, Nat.xor_comm, xor_left_comm,
        Nat.xor_self, xor_self_left, Nat.xor_zero, Nat.zero_xor]
    · have hdelta : ¬ 0 < m.to_col - m.from_col := by omega
      rw [if_neg hdelta]
      have hrk : mkSq1 b m m.from_row 0 = b.squares m.from_row 0 := by
        unfold mkSq1
        rw [setSquare_ne _ _ (by rintro ⟨-, h⟩; omega)]
        unfold mkSq0
        rw [if_neg hnep]
      rw [hrk]
      have ht0 : (b.squares m.from_row 0).type ≠ PieceType.None := by
        rw [h0t]
        intro hx
        cases hx
      have hc0' : (b.squares m.from_row 0).color ≠ Color.None := by
        rw [h0c]
        exact hcolor_from
      rw [← zPieceContrib_eq Z (b.squares m.from_row 0) m.from_row 0 ht0 hc0',
        ← zPieceContrib_eq Z (b.squares m.from_row 0) m.from_row 3 ht0 hc0']
      have hMS : mkSquares b m
          = setSquare
              (setSquare
                (setSquare (setSquare b.squares m.from_row m.from_col {}) m.from_row 0 {})
                m.from_row 3 (b.squares m.from_row 0))
              m.to_row m.to_col (mkPiece2 b m) := by
        unfold mkSquares mkSq1 mkSq0
        dsimp only
        rw [if_neg hnep, if_pos hcast, if_neg hdelta]
        rw [setSquare_ne _ _ (by rintro ⟨-, h⟩; omega)]
      rw [hMS, pieceHash_setSquare Z _ (mkPiece2 b m) htr0 htr8 htc0 htc8,
        setSquare_ne _ _ (by rintro ⟨-, h⟩; omega),
        setSquare_ne _ _ (by rintro ⟨-, h⟩; omega),
        setSquare_ne _ _ (by rintro ⟨-, h⟩; omega),
        pieceHash_setSquare Z _ (b.squares m.from_row 0) hfr0 hfr8
          (by norm_num) (by norm_num),
        setSquare_ne _ _ (by rintro ⟨-, h⟩; omega),
        setSquare_ne _ _ (by rintro ⟨-, h⟩; omega),
        zPieceContrib_none Z _ m.from_row 3 h3,
        pieceHash_setSquare Z _ ({} : Piece) hfr0 hfr8
          (by norm_num : (0:Int) ≤ 0) (by norm_num : (0:Int) < 8),
        setSquare_ne _ _ (by rintro ⟨-, h⟩; omega),
        pieceHash_setSquare Z _ ({} : Piece) hfr0 hfr8 hfc0 hfc8]
      simp only [zPieceContrib_empty, Nat.xor_assoc, Nat.xor_comm, xor_left_comm,
        Nat.xor_self, xor_self_left, Nat.xor_zero, Nat.zero_xor]
  · rw [if_neg hcast]
    by_cases hep : wasEpCond b m
    · rw [if_pos hep]
      have hfctc : m.from_col ≠ m.to_col := hep.2.1
      have htrfr : m.to_row ≠ m.from_row := F.pawn_to_row hep.1
      have hcapep : ∀ X : Nat,
          (if (b.squares m.from_row m.to_col).type ≠ PieceType.None then
            X ^^^ Z.piece (zc (b.squares m.from_row m.to_col).color)
              (pieceTypeIndex (b.squares m.from_row m.to_col).type)
              (sq_index m.from_row m.to_col)
          else X)
          = X ^^^ zPieceContrib Z (b.squares m.from_row m.to_col) m.from_row m.to_col := by
        intro X
        by_cases hoc : (b.squares m.from_row m.to_col).type = PieceType.None
        · rw [if_neg (not_not_intro hoc), zPieceContrib_none Z _ m.from_row m.to_col hoc,
            Nat.xor_zero]
        · rw [if_pos hoc,
            zPieceContrib_eq Z _ m.from_row m.to_col hoc
              (WF_color_ne hwf hfr0 hfr8 htc0 htc8 hoc)]
      rw [hcapep]
      have hMS : mkSquares b m
          = setSquare
              (setSquare (setSquare b.squares m.from_row m.to_col {}) m.from_row m.from_col {})
              m.to_row m.to_col (mkPiece2 b m) := by
        unfold mkSquares mkSq1 mkSq0
        dsimp only
        rw [if_pos hep, if_neg hcast]
      rw [hMS, pieceHash_setSquare Z _ (mkPiece2 b m) htr0 htr8 htc0 htc8,
        setSquare_ne _ _ F.ne_dest,
        setSquare_ne _ _ (by rintro ⟨h1, -⟩; omega),
        zPieceContrib_none Z _ m.to_row m.to_col hep.2.2.1,
        pieceHash_setSquare Z _ ({} : Piece) hfr0 hfr8 hfc0 hfc8,
        setSquare_ne _ _ (by rintro ⟨-, h⟩; omega),
        pieceHash_setSquare Z _ ({} : Piece) hfr0 hfr8 htc0 htc8]
      simp only [zPieceContrib_empty, Nat.xor_assoc, Nat.xor_comm, xor_left_comm,
        Nat.xor_self, xor_self_left, Nat.xor_zero, Nat.zero_xor]
    · rw [if_neg hep, hcapto]
      have hMS : mkSquares b m
          = setSquare (setSquare b.squares m.from_row m.from_col {})
              m.to_row m.to_col (mkPiece2 b m) := by
        unfold mkSquares mkSq1 mkSq0
        dsimp only
        rw [if_neg hep, if_neg hcast]
      rw [hMS, pieceHash_setSquare Z _ (mkPiece2 b m) htr0 htr8 htc0 htc8,
        setSquare_ne _ _ F.ne_dest,
        pieceHash_setSquare Z _ ({} : Piece) hfr0 hfr8 hfc0 hfc8]
      simp only [zPieceContrib_empty, Nat.xor_assoc, Nat.xor_comm, xor_left_comm,
        Nat.xor_self, xor_self_left, Nat.xor_zero, Nat.zero_xor]

/-- C2: starting from a well-formed board whose hash is correct
(`zobrist_hash = compute_zobrist`), after `make_move` of any generated
legal move the incrementally maintained `zobrist_hash` again equals
`compute_zobrist` of the resulting board, and after the following
`unmake_move` it equals `compute_zobrist` of the restored board; hence
hash-correctness is preserved through any sequence of legal
`make_move`/`unmake_move` pairs, captures, en passant, castling and
promotions included. -/
theorem zobrist_incremental_correct {Z : ZTables} {b : Board} {m : move} (hwf : WF b)
    (hh : b.zobrist_hash = compute_zobrist Z b)
    (hm : m ∈ Movegen.generate_legal_moves Z b) :
    (make_move Z b m).1.zobrist_hash = compute_zobrist Z (make_move Z b m).1 ∧
    (unmake_move (make_move Z b m).1 m (make_move Z b m).2).zobrist_hash
      = compute_zobrist Z (unmake_move (make_move Z b m).1 m (make_move Z b m).2) := by
  have F := legal_move_facts hwf.2.1 hm
  constructor
  · rw [make_move_eq Z b m (pc_ok_of_facts hwf F)]
    exact mkBoard_hash_correct hwf hh F
  · rw [roundtrip_of_WF hwf hm]
    exact hh

set_option maxRecDepth 100000 in
/-- C2 witness: the starting position with its hash initialised as `main`
does satisfies the hypotheses, and the hash after e2e4 equals
`compute_zobrist` of the resulting position. -/
theorem zobrist_incremental_correct_witness :
    WF stHashed ∧ stHashed.zobrist_hash = compute_zobrist Ztest stHashed ∧
    (make_move Ztest stHashed mv_e2e4).1.zobrist_hash
      = compute_zobrist Ztest (make_move Ztest stHashed mv_e2e4).1 :=
  ⟨by decide, by decide,
    (@zobrist_incremental_correct Ztest stHashed mv_e2e4 (by decide) (by decide) (by decide)).1⟩

/-! ## The legality filter (C3) -/

/-- C3: on any board with exactly one king per colour, every move the
generator returns leaves the moving side not in check (according to
`is_in_check`) in the position `make_move` produces. -/
theorem legal_moves_leave_mover_safe {Z : ZTables} {b : Board} {m : move}
    (hk1 : king_count b Color.White = 1) (hk2 : king_count b Color.Black = 1)
    (hm : m ∈ Movegen.generate_legal_moves Z b) :
    Movegen.is_in_check (make_move Z b m).1 b.side_to_move = false := by
  unfold Movegen.generate_legal_moves at hm
  dsimp only at hm
  rw [List.mem_filter] at hm
  have h2 := hm.2
  rw [Bool.not_eq_true'] at h2
  exact h2

set_option maxRecDepth 100000 in
/-- C3 witness: the starting position has one king per side, e2e4 is
generated there, and White is not in check afterwards. -/
theorem legal_moves_leave_mover_safe_witness :
    king_count make_starting_position Color.White = 1 ∧
    king_count make_starting_position Color.Black = 1 ∧
    Movegen.is_in_check (make_move Ztest make_starting_position mv_e2e4).1
      make_starting_position.side_to_move = false :=
  ⟨by decide, by decide, legal_moves_leave_mover_safe (by decide) (by decide) (by decide)⟩

/-! ## The two attack oracles (C10) -/

theorem scan_ray_mono {b : Board} {tr tc dr dc : Int} {p q : Piece → Bool}
    (hpq : ∀ x, p x = true → q x = true) :
    ∀ (fuel : Nat) (dist : Int), scan_ray b tr tc dr dc p fuel dist = true →
      scan_ray b tr tc dr dc q fuel dist = true := by
  intro fuel
  induction fuel with
  | zero =>
    intro dist h
    simp [scan_ray] at h
  | succ n ih =>
    intro dist h
    unfold scan_ray at h ⊢
    dsimp only at h ⊢
    by_cases hv : is_valid_square (tr + dr * dist) (tc + dc * dist) = true
    · rw [if_neg (not_not_intro hv)] at h ⊢
      by_cases ho : (b.squares (tr + dr * dist) (tc + dc * dist)).type = PieceType.None
      · rw [if_neg (not_not_intro ho)] at h ⊢
        exact ih _ h
      · rw [if_pos ho] at h ⊢
        exact hpq _ h
    · rw [if_pos hv] at h
      exact absurd h Bool.false_ne_true

theorem or_absorb_left {x r q kg : Bool} (h : r = true → q = true) :
    (x || r || q || kg) = (x || q || kg) := by
  cases r
  · simp
  · rw [h rfl]
    simp

/-- C10: the attack oracle of `src/attacks.cpp` computes the same
function as the one of `src/2_generate_legal_moves.cpp` on every board,
every square of the board and every colour: its extra three-direction
Rook-only scan is subsumed by its four-direction Rook-or-Queen scan. -/
theorem attacks_is_attacked_eq (b : Board) (row col : Int) (by_color : Color)
    (hr : 0 ≤ row ∧ row < 8) (hc : 0 ≤ col ∧ col < 8) :
    Attacks.is_attacked b row col by_color = Movegen.is_attacked b row col by_color := by
  unfold Attacks.is_attacked Movegen.is_attacked
  dsimp only
  apply or_absorb_left
  intro hrk
  rw [List.any_eq_true] at hrk ⊢
  obtain ⟨d, hd, hscan⟩ := hrk
  refine ⟨d, ?_, ?_⟩
  · have hsub : ∀ x ∈ rook_dirs, x ∈ straight_dirs := by decide
    exact hsub d hd
  · refine scan_ray_mono ?_ 7 1 hscan
    intro p hp
    rw [decide_eq_true_iff] at hp ⊢
    exact ⟨hp.1, Or.inl hp.2⟩

/-- C10 witness: the two oracles agree on a concrete in-range query. -/
theorem attacks_is_attacked_eq_witness :
    ((0:Int) ≤ 0 ∧ (0:Int) < 8) ∧ ((0:Int) ≤ 4 ∧ (4:Int) < 8) ∧
    Attacks.is_attacked cbC4 0 4 Color.Black = Movegen.is_attacked cbC4 0 4 Color.Black :=
  ⟨⟨by decide, by decide⟩, ⟨by decide, by decide⟩,
    attacks_is_attacked_eq cbC4 0 4 Color.Black ⟨by decide, by decide⟩ ⟨by decide, by decide⟩⟩

/-! ## Castling out of check (C4) -/

set_option maxRecDepth 100000 in
/-- C4 is refuted on the concrete position `cbC4`: the side to move is in
check (the black knight on d3 attacks e1), yet the castling move e1g1 (a
two-column king move) is in the generator's output:
`generate_castling_moves` test-moves the king through f1 and g1 but never
tests its own square e1, and the final legality filter only checks the
king's destination. -/
theorem castling_emitted_while_in_check :
    Movegen.is_in_check cbC4 cbC4.side_to_move = true ∧
    mv_e1g1 ∈ Movegen.generate_legal_moves Ztest cbC4 := by
  exact ⟨by decide, by decide⟩

/-! ## The opening book is dead code (C5) -/

/-- C5: the book side of the claim: `get_book_move` maps the empty
history to the uci reply e2e4 of the book root.  The routing side fails
in the source: `main` in `src/src/main.cpp` computes its output via
`find_best_move` only and contains no call to `get_book_move` (nor does
any other translation unit), so the emitted move is always the search
result. -/
theorem get_book_move_empty :
    get_book_move [] = { from_row := 1, from_col := 4, to_row := 3, to_col := 4 } := by
  decide

/-! ## Illegal history moves are applied anyway (C6) -/

/-- C6 (amended): when a history line parses to a move that is not among
the legal moves of the reconstructed position, `parse_history` records
the error line — and then applies the move to the board anyway (the
"Continue anyway" path of `src/src/main.cpp`), so the board is NOT left
unchanged by that line. -/
theorem parse_history_illegal_applied (Z : ZTables)
    (st : Board × List Nat × List (List Char)) (line : List Char)
    (hne : trim_line line ≠ [])
    (hill : parse_move (trim_line line) ∉ Movegen.generate_legal_moves Z st.1) :
    (parse_history_step Z st line).2.2 = st.2.2 ++ [trim_line line] ∧
    (parse_history_step Z st line).1 = (make_move Z st.1 (parse_move (trim_line line))).1 := by
  unfold parse_history_step
  dsimp only
  rw [if_neg hne, if_neg hill]
  exact ⟨rfl, rfl⟩

set_option maxRecDepth 100000 in
/-- C6 counterexample to the claim as stated: the illegal line "e2e5" on
the starting position is recorded as an error, but the board after the
line differs from the board before it (the e2 pawn is gone), refuting
"leaving the board unchanged by that line". -/
theorem parse_history_illegal_changes_board :
    (parse_history_step Ztest st0C6 lineE2E5).2.2 = [lineE2E5] ∧
    (parse_history_step Ztest st0C6 lineE2E5).1.squares 1 4 ≠ st0C6.1.squares 1 4 := by
  exact ⟨by decide, by decide⟩

set_option maxRecDepth 100000 in
/-- C6 witness for the amended statement, on the concrete illegal line
"e2e5" at the starting position. -/
theorem parse_history_illegal_applied_witness :
    trim_line lineE2E5 ≠ [] ∧
    parse_move (trim_line lineE2E5) ∉ Movegen.generate_legal_moves Ztest st0C6.1 ∧
    (parse_history_step Ztest st0C6 lineE2E5).2.2 = st0C6.2.2 ++ [trim_line lineE2E5] ∧
    (parse_history_step Ztest st0C6 lineE2E5).1
      = (make_move Ztest st0C6.1 (parse_move (trim_line lineE2E5))).1 :=
  ⟨by decide, by decide,
    parse_history_illegal_applied Ztest st0C6 lineE2E5 (by decide) (by decide)⟩

/-! ## The promotion letter of the history parser (C7) -/

/-- C7 is refuted at the letter `n`: `parse_move` of `src/src/main.cpp`
maps a fifth character `q`/`r`/`b` per the claim, but maps `n` to NONE
(its switch has no `n` case) and instead maps `k` to a knight
promotion. -/
theorem parse_move_promotion_letters :
    (parse_move (['a', '7', 'a', '8', 'n'] : List Char)).promotion
        = promotion_piece_type.NONE ∧
    (parse_move (['a', '7', 'a', '8', 'k'] : List Char)).promotion
        = promotion_piece_type.KNIGHT ∧
    (parse_move (['a', '7', 'a', '8', 'q'] : List Char)).promotion
        = promotion_piece_type.QUEEN ∧
    (parse_move (['a', '7', 'a', '8', 'r'] : List Char)).promotion
        = promotion_piece_type.ROOK ∧
    (parse_move (['a', '7', 'a', '8', 'b'] : List Char)).promotion
        = promotion_piece_type.BISHOP := by
  exact ⟨by decide, by decide, by decide, by decide, by decide⟩

/-! ## MVV-LVA move ordering (C8) -/

/-- The capture branches of `calculate_move_score`: a non-promotion
capture (normal or en passant) scores exactly
`10 * victim_value - attacker_value`. -/
theorem capture_score_eq (k : Killers) (h : HistoryTable) (b : Board) (m : move) (d : Int)
    (hc : is_capture_move b m = true) (hp : m.promotion = promotion_piece_type.NONE) :
    calculate_move_score k h b m d = 10 * victim_value b m - attacker_value b m := by
  unfold calculate_move_score
  rw [if_neg (fun hcon => hcon hp)]
  dsimp only
  unfold is_capture_move at hc
  dsimp only at hc
  by_cases h1 : (b.squares m.to_row m.to_col).type ≠ PieceType.None ∧
      (b.squares m.to_row m.to_col).color ≠ b.side_to_move
  · rw [if_pos h1]
    unfold victim_value attacker_value
    rw [if_pos h1]
  · rw [if_neg h1] at hc ⊢
    by_cases h2 : (b.squares m.from_row m.from_col).type = PieceType.Pawn ∧
        m.from_col ≠ m.to_col ∧ (b.squares m.to_row m.to_col).type = PieceType.None ∧
        b.en_passant_row = m.to_row ∧ b.en_passant_col = m.to_col
    · rw [if_pos h2]
      unfold victim_value attacker_value
      rw [if_neg h1]
    · rw [if_neg h2] at hc
      exact absurd hc Bool.false_ne_true

/-- C8 (amended): MVV-LVA ordering of `calculate_move_score` is monotone
for capture moves that are not promotions, in the product order: a
strictly more valuable victim with an attacker that is no more valuable —
or an equally valuable victim with a strictly less valuable attacker —
yields a strictly higher score.  (The claim's unconditional victim-first
monotonicity is false, and so is any version including promotions: see
the counterexample.) -/
theorem mvv_lva_monotone {k : Killers} {h : HistoryTable} {b : Board} {m1 m2 : move} {d : Int}
    (hc1 : is_capture_move b m1 = true) (hp1 : m1.promotion = promotion_piece_type.NONE)
    (hc2 : is_capture_move b m2 = true) (hp2 : m2.promotion = promotion_piece_type.NONE)
    (hva : (victim_value b m2 < victim_value b m1 ∧
        attacker_value b m1 ≤ attacker_value b m2) ∨
      (victim_value b m2 = victim_value b m1 ∧
        attacker_value b m1 < attacker_value b m2)) :
    calculate_move_score k h b m2 d < calculate_move_score k h b m1 d := by
  rw [capture_score_eq k h b m1 d hc1 hp1, capture_score_eq k h b m2 d hc2 hp2]
  rcases hva with ⟨hv, ha⟩ | ⟨hv, ha⟩ <;> omega

/-- C8 counterexample to the claim as stated, on `cbC8`: QxB has a
strictly more valuable victim than PxN (330 over 320) yet scores strictly
lower (2400 over 3100); and the capture-promotion PxQ has the most
valuable victim of all (900) yet its promotion score 1000 is below PxR's
4900, so no unconditional victim-first monotonicity holds, with or
without promotions. -/
theorem mvv_lva_monotone_counterexample :
    is_capture_move cbC8 mv_QxB = true ∧ is_capture_move cbC8 mv_PxN = true ∧
    victim_value cbC8 mv_PxN < victim_value cbC8 mv_QxB ∧
    calculate_move_score emptyKillers emptyHistory cbC8 mv_QxB 0
      < calculate_move_score emptyKillers emptyHistory cbC8 mv_PxN 0 ∧
    is_capture_move cbC8 mv_PxQprom = true ∧ is_capture_move cbC8 mv_PxR = true ∧
    victim_value cbC8 mv_PxR < victim_value cbC8 mv_PxQprom ∧
    calculate_move_score emptyKillers emptyHistory cbC8 mv_PxQprom 0
      < calculate_move_score emptyKillers emptyHistory cbC8 mv_PxR 0 := by
  exact ⟨by decide, by decide, by decide, by decide, by decide, by decide, by decide, by decide⟩

/-- C8 witness for the amended statement: PxR (victim 500, attacker 100)
against PxN (victim 320, attacker 100) on `cbC8`. -/
theorem mvv_lva_monotone_witness :
    is_capture_move cbC8 mv_PxR = true ∧ mv_PxR.promotion = promotion_piece_type.NONE ∧
    is_capture_move cbC8 mv_PxN = true ∧ mv_PxN.promotion = promotion_piece_type.NONE ∧
    calculate_move_score emptyKillers emptyHistory cbC8 mv_PxN 0
      < calculate_move_score emptyKillers emptyHistory cbC8 mv_PxR 0 :=
  ⟨by decide, by decide, by decide, by decide,
    mvv_lva_monotone (by decide) (by decide) (by decide) (by decide)
      (Or.inl ⟨by decide, by decide⟩)⟩

end CheckYoSelf
